import Mathlib

/-!
Shallow embedding of the GSAT Vocabulary Website edge workers
(src/worker-api.js and src/worker.js) together with theorems about the
behaviour of their request handlers.

Modelling conventions:
* JS strings are Lean `String`; `toLowerCase`, `trim`, `startsWith`,
  `endsWith` are modelled by the corresponding ASCII `String` operations.
* JS numbers that can be `NaN` are modelled as `Option Int` (`none` = NaN).
* The R2 object store, the KV cache and the edge cache are explicit
  components of a `St` record; handlers that write to a cache are state
  transformers `… → St → Response × St`, handlers without writes are pure.
* `Math.random()`-driven choices are modelled by oracle functions
  (`Nat → Nat`); the value at call `i` is reduced modulo the range the
  code multiplies by, so every oracle yields an in-range index.
* Response headers other than the status and etag are not modelled; no
  claim mentions them.  Bodies are modelled by a `Body` datatype with one
  constructor per JSON shape the workers serialize.
-/

set_option maxHeartbeats 2000000
set_option maxRecDepth 100000

namespace GsatVocab

/-! ### JS primitive helpers -/

/-- Model of the JS idiom `x || d` for a possibly-missing string `x`
(`null`/missing and the empty string are falsy). -/
def jsOr (o : Option String) (d : String) : String :=
  match o with
  | some s => if s = "" then d else s
  | none => d

/-- Model of the JS idiom `x || undefined` for a possibly-missing string. -/
def jsUndef (o : Option String) : Option String :=
  match o with
  | some s => if s = "" then none else some s
  | none => none

/-- JS whitespace for `trim` (ASCII model). -/
def isSpaceChar (c : Char) : Bool :=
  c = ' ' || c = '\t' || c = '\n' || c = '\r'

/-- Model of `String.prototype.trim` (kernel-reducible). -/
def jsTrim (s : String) : String :=
  String.mk (((s.toList.dropWhile isSpaceChar).reverse.dropWhile isSpaceChar).reverse)

/-- Model of `String.prototype.toLowerCase` (ASCII case folding,
kernel-reducible). -/
def jsToLower (s : String) : String :=
  String.mk (s.toList.map Char.toLower)

/-- Model of `s.startsWith(p)` (kernel-reducible). -/
def jsStartsWith (s p : String) : Bool :=
  p.toList.isPrefixOf s.toList

/-- Model of `s.endsWith(p)` (kernel-reducible). -/
def jsEndsWith (s p : String) : Bool :=
  p.toList.isSuffixOf s.toList

/-- Model of `s.slice(n)` for a non-negative character index. -/
def jsDrop (n : Nat) (s : String) : String :=
  String.mk (s.toList.drop n)

/-- Model of `s.slice(0, -n)`. -/
def jsDropRight (n : Nat) (s : String) : String :=
  String.mk (s.toList.take (s.toList.length - n))

/-- Splitting a character list on a separator character. -/
def splitOnChar (sep : Char) : List Char → List (List Char)
  | [] => [[]]
  | c :: cs =>
    let r := splitOnChar sep cs
    if c = sep then [] :: r
    else
      match r with
      | [] => [[c]]
      | g :: gs => (c :: g) :: gs

/-- Model of `s.split(sep)` for a one-character separator. -/
def jsSplit (sep : Char) (s : String) : List String :=
  (splitOnChar sep s.toList).map String.mk

/-- Numeric value of a non-empty list of decimal digit characters. -/
def digitsToNat (ds : List Char) : Nat :=
  ds.foldl (fun a c => a * 10 + (c.toNat - 48)) 0

/-- Model of JS `parseInt` in base 10: optional sign, then a non-empty
run of leading digits; trailing garbage is ignored; `none` models NaN. -/
def parseIntJS (s : String) : Option Int :=
  match (jsTrim s).toList with
  | '-' :: r =>
      let ds := r.takeWhile Char.isDigit
      if ds.isEmpty then none else some (-(digitsToNat ds : Int))
  | '+' :: r =>
      let ds := r.takeWhile Char.isDigit
      if ds.isEmpty then none else some ((digitsToNat ds : Int))
  | r =>
      let ds := r.takeWhile Char.isDigit
      if ds.isEmpty then none else some ((digitsToNat ds : Int))

/-! ### Data model -/

/-- A sentence value inside a detail document: either a bare JSON string
or an object with a `text` field. -/
inductive SentenceVal where
  | str (s : String)
  | obj (text : String)
deriving DecidableEq, Repr

/-- The `sentences` field of a detail document: a bare array, an object
with optional `featured` / `other` arrays, or absent. -/
inductive SentencesData where
  | arr (sentences : List SentenceVal)
  | obj (featured : Option (List SentenceVal)) (other : Option (List SentenceVal))
  | absent
deriving DecidableEq, Repr

/-- Function `splitSentencesData` from worker-api.js: normalise `sentences` into a
`featured`/`other` pair. -/
def splitSentencesData : SentencesData → List SentenceVal × List SentenceVal
  | .arr s => (s, [])
  | .obj f o => (f.getD [], o.getD [])
  | .absent => ([], [])

/-- One entry of `vocab_index.json`. -/
structure IndexEntry where
  lemma_ : String
  count : Nat
  zh_preview : String
  primary_pos : String
deriving DecidableEq, Repr

/-- Parsed content of `search_index.json`: the `by_frequency` and
`by_pos` JSON objects as association lists. -/
structure SearchIdx where
  by_frequency : List (String × List String)
  by_pos : List (String × List String)
deriving DecidableEq, Repr

/-- A detail document `vocab_details/{lemma}.json`.  String fields that
may be absent in the JSON are `Option String`; an absent `lemma` is the
empty string (both are falsy for `||`), an absent `count` is `0`. -/
structure DetailDoc where
  lemma_ : String
  count : Nat
  meanings : Option String
  pos_dist : Option String
  zh_preview : Option String
  definition : Option String
  sentences : SentencesData
deriving DecidableEq, Repr

/-- The reduced detail record built by `handleGetDetail`. -/
structure DetailMinimal where
  lemma_ : String
  count : Nat
  meanings : Option String
  pos_dist : Option String
  zh_preview : Option String
  definition : Option String
  sentences_preview : List SentenceVal
  sentences_total : Nat
  sentences_next_offset : Nat
deriving DecidableEq, Repr

/-- An option of a multiple-choice quiz question. -/
structure ChoiceOption where
  value : String
  label : String
deriving DecidableEq, Repr

/-- A quiz question, one constructor per `type` the code builds. -/
inductive Question where
  | fill (word : String) (sentence : String) (options : List ChoiceOption) (correct : String)
  | choice (word : String) (question : String) (options : List ChoiceOption) (correct : String)
  | spelling (word : String) (question : String) (answer : String) (hint : String) (correct : String)
deriving DecidableEq, Repr

/-- Response bodies, one constructor per JSON/text shape serialized by
the two workers. -/
inductive Body where
  | jsonErr (msg : String)
  | text (s : String)
  | apiInfo
  | indexData (data : List IndexEntry)
  | searchOk (query : String) (count : Nat) (results : List IndexEntry)
  | detailOk (m : DetailMinimal)
  | randomOk (d : DetailDoc)
  | quizOk (type : String) (count : Nat) (questions : List Question)
  | searchIndexData (d : SearchIdx)
  | sentencesOk (items : List SentenceVal) (total : Nat) (next_offset : Option Int) (has_more : Bool)
  | audioStream
  | empty
deriving DecidableEq, Repr

/-- An HTTP response: status, body, and the ETag header when set. -/
structure Response where
  status : Nat
  body : Body
  etag : Option String
deriving DecidableEq, Repr

/-- An R2 object holding the vocabulary index. -/
structure IndexObj where
  data : List IndexEntry
  etag : String
deriving DecidableEq, Repr

/-- An R2 object holding the search index. -/
structure SearchIdxObj where
  data : SearchIdx
  etag : String
deriving DecidableEq, Repr

/-- An incoming HTTP request (the parts the workers look at). -/
structure Request where
  method : String
  path : String
  params : String → Option String
  ifNoneMatch : Option String

/-- Worker environment bindings: which optional bindings exist. -/
structure Env where
  hasKV : Bool
  hasAudioBucket : Bool

/-- The mutable world visible to the API worker: the R2 buckets, the KV
cache and the edge cache. -/
structure St where
  vocabIndexObj : Option IndexObj
  searchIndexObj : Option SearchIdxObj
  detailObj : String → Option DetailDoc
  audioObj : String → Option Unit
  kvVocabIndex : Option (List IndexEntry)
  kvSearchIndex : Option SearchIdx
  kvDetail : String → Option DetailMinimal
  edgeIndex : Option Response
  edgeSearch : Option Response

/-- Query-string lookup. -/
abbrev Params := String → Option String

/-! ### shuffleArray -/

/-- Swap the elements at positions `i` and `j` (the JS destructuring
swap); out-of-range indices leave the list unchanged. -/
def listSwap (l : List α) (i j : Nat) : List α :=
  match l.get? i, l.get? j with
  | some a, some b => (l.set i b).set j a
  | _, _ => l

/-- The Fisher-Yates loop of `shuffleArray`, counting the index `i`
down; `rand i` is the random draw used at index `i`. -/
def shuffleGo (rand : Nat → Nat) : Nat → List α → List α
  | 0, l => l
  | i + 1, l => shuffleGo rand i (listSwap l (i + 1) (rand (i + 1) % (i + 2)))

/-- Function `shuffleArray` from worker-api.js: copy the array, then run the
Fisher-Yates loop from the last index down to 1. -/
def shuffleArray (rand : Nat → Nat) (array : List α) : List α :=
  shuffleGo rand (array.length - 1) array

theorem cons_set_perm {l : List α} {j : Nat} {b : α} (a : α)
    (h : l.get? j = some b) : (b :: l.set j a).Perm (a :: l) := by
  induction l generalizing j with
  | nil => simp [List.get?] at h
  | cons c cs ih =>
    cases j with
    | zero =>
      rw [List.get?_cons_zero] at h
      injection h with h
      subst h
      simpa only [List.set_cons_zero] using List.Perm.swap a c cs
    | succ k =>
      rw [List.get?_cons_succ] at h
      have h1 : (b :: cs.set k a).Perm (a :: cs) := ih h
      have h2 : (b :: c :: cs.set k a).Perm (c :: b :: cs.set k a) :=
        List.Perm.swap c b _
      have h3 : (c :: b :: cs.set k a).Perm (c :: a :: cs) := h1.cons c
      have h4 : (c :: a :: cs).Perm (a :: c :: cs) := List.Perm.swap a c cs
      simpa only [List.set_cons_succ] using (h2.trans h3).trans h4

theorem set_set_perm (l : List α) (i j : Nat) (a b : α)
    (h1 : l.get? i = some a) (h2 : l.get? j = some b) :
    ((l.set i b).set j a).Perm l := by
  induction l generalizing i j with
  | nil => simp [List.get?] at h1
  | cons c cs ih =>
    cases i with
    | zero =>
      rw [List.get?_cons_zero] at h1
      injection h1 with h1
      subst h1
      cases j with
      | zero =>
        rw [List.get?_cons_zero] at h2
        injection h2 with h2
        subst h2
        simp
      | succ k =>
        rw [List.get?_cons_succ] at h2
        simpa only [List.set_cons_zero, List.set_cons_succ] using
          cons_set_perm (l := cs) (j := k) c h2
    | succ m =>
      rw [List.get?_cons_succ] at h1
      cases j with
      | zero =>
        rw [List.get?_cons_zero] at h2
        injection h2 with h2
        subst h2
        simpa only [List.set_cons_zero, List.set_cons_succ] using
          cons_set_perm (l := cs) (j := m) c h1
      | succ k =>
        rw [List.get?_cons_succ] at h2
        simpa only [List.set_cons_succ] using (ih m k h1 h2).cons c

theorem listSwap_perm (l : List α) (i j : Nat) : (listSwap l i j).Perm l := by
  unfold listSwap
  split
  · next a b h1 h2 => exact set_set_perm l i j a b h1 h2
  · exact List.Perm.refl l

theorem shuffleGo_perm (rand : Nat → Nat) (n : Nat) (l : List α) :
    (shuffleGo rand n l).Perm l := by
  induction n generalizing l with
  | zero => exact List.Perm.refl l
  | succ i ih =>
    exact (ih _).trans (listSwap_perm l (i + 1) (rand (i + 1) % (i + 2)))

/-! ### Quiz helpers: option picking, inflection variants, blanking -/

/-- Association-list lookup modelling JS object indexing `m[k]`. -/
def jsGet (m : List (String × List String)) (k : String) : Option (List String) :=
  (m.find? (fun p => p.1 = k)).map (fun p => p.2)

/-- Model of `Object.keys` of `Object.fromEntries(index.map(w => [w.lemma, w]))`:
the distinct lemmas in first-occurrence order. -/
def insertKey (acc : List String) (k : String) : List String :=
  if k ∈ acc then acc else acc ++ [k]

def objectKeysOf (l : List String) : List String :=
  l.foldl insertKey []

/-- Lookup in `Object.fromEntries(index.map(w => [w.lemma, w]))`: the
last entry with the given lemma wins. -/
def mkIndexMap (index : List IndexEntry) : String → Option IndexEntry :=
  fun k => index.reverse.find? (fun w => w.lemma_ = k)

/-- Random oracles for one `generateChoiceOptions` call. -/
structure ChoiceRng where
  pick : Nat → Nat
  shuffle : Nat → Nat

/-- The distractor-picking loop of `generateChoiceOptions`
(`for (let i = 0; i < 3 && otherWords.length > 0; i++)`): returns the
picked words in order and the remaining pool. -/
def pickLoop (pick : Nat → Nat) : Nat → List String → List String × List String
  | 0, ow => ([], ow)
  | k + 1, ow =>
    match ow with
    | [] => ([], [])
    | x :: rest =>
      let j := pick k % (x :: rest).length
      let w := (x :: rest).getD j ""
      let r := pickLoop pick k ((x :: rest).eraseIdx j)
      (w :: r.1, r.2)

/-- The label of a choice option: `indexMap[lemma]?.zh_preview || lemma`. -/
def choiceLabel (indexMap : String → Option IndexEntry) (l : String) : String :=
  match indexMap l with
  | some w => if w.zh_preview = "" then l else w.zh_preview
  | none => l

/-- Function `generateChoiceOptions` from worker-api.js: the correct word plus up
to three distinct-position distractors, shuffled, with labels. -/
def generateChoiceOptions (rng : ChoiceRng) (correctWord : String)
    (allCandidates : List String) (indexMap : String → Option IndexEntry) :
    List ChoiceOption :=
  let otherWords := allCandidates.filter (fun w => decide (w ≠ correctWord))
  let options := correctWord :: (pickLoop rng.pick 3 otherWords).1
  (shuffleArray rng.shuffle options).map
    (fun l => { value := l, label := choiceLabel indexMap l })

/-- Does `lower` end in a letter matched by the regexes
`[sxz]$` or `(ch|sh)$`? -/
def endsSibilant (lower : String) : Bool :=
  jsEndsWith lower "s" || jsEndsWith lower "x" || jsEndsWith lower "z" ||
    jsEndsWith lower "ch" || jsEndsWith lower "sh"

/-- Does `lower` match `/y$/` but not `/[aeiou]y$/`? -/
def endsConsonantY (lower : String) : Bool :=
  jsEndsWith lower "y" &&
    !(jsEndsWith lower "ay" || jsEndsWith lower "ey" || jsEndsWith lower "iy" ||
      jsEndsWith lower "oy" || jsEndsWith lower "uy")

/-- Function `getInflectionVariants` from worker-api.js: the lemma plus its
plural/third-person form (both blocks of the source add the same form,
so the set has at most two members). -/
def getInflectionVariants (lemma_ : String) : List String :=
  let lower := jsToLower lemma_
  let inflected :=
    if endsSibilant lower then lower ++ "es"
    else if endsConsonantY lower then jsDropRight 1 lower ++ "ies"
    else lower ++ "s"
  if inflected = lemma_ then [lemma_] else [lemma_, inflected]

/-- JS regex word character (`\w`): ASCII letter, digit or underscore. -/
def isWordChar (c : Char) : Bool :=
  c.isAlpha || c.isDigit || c = '_'

/-- A word boundary (`\b`) between two positions: exactly one side is a
word character (a missing side counts as a non-word character). -/
def boundaryAt (prev : Option Char) (next : Option Char) : Bool :=
  (prev.elim false isWordChar) != (next.elim false isWordChar)

/-- Case-insensitive match of `v` at the front of `cs` (JS `i` flag,
ASCII case folding). -/
def ciMatch : List Char → List Char → Bool
  | [], _ => true
  | _ :: _, [] => false
  | v :: vs, c :: cs => (v.toLower = c.toLower) && ciMatch vs cs

/-- Try the variant alternation at the current position: the first
variant that matches with a word boundary on both sides wins (JS regex
alternation order).  Returns the length of the match. -/
def tryVariants (variants : List String) (prev : Option Char) (cs : List Char) : Option Nat :=
  variants.findSome? (fun v =>
    let vl := v.toList
    if ciMatch vl cs then
      let afterPrev := if vl.isEmpty then prev else vl.getLast? 
      if boundaryAt prev cs.head? && boundaryAt afterPrev ((cs.drop vl.length).head?) then
        some vl.length
      else none
    else none)

/-- The scanning loop of the global replace: at each position replace
the leftmost match of the variant alternation with four underscores. -/
def blankGo (variants : List String) : Nat → Option Char → List Char → List Char
  | 0, _, cs => cs
  | fuel + 1, prev, cs =>
    match cs with
    | [] =>
      match tryVariants variants prev [] with
      | some _ => "____".toList
      | none => []
    | c :: rest =>
      match tryVariants variants prev (c :: rest) with
      | some 0 => "____".toList ++ c :: blankGo variants fuel (some c) rest
      | some (n + 1) =>
        let consumed := (c :: rest).take (n + 1)
        "____".toList ++
          blankGo variants fuel (consumed.getLast? ) ((c :: rest).drop (n + 1))
      | none => c :: blankGo variants fuel (some c) rest

/-- Model of `sentenceText.replace(new RegExp(pattern, "gi"), "____")`
with `pattern` the word-boundary alternation of the variants. -/
def blankVariants (variants : List String) (text : String) : String :=
  String.mk (blankGo variants (text.toList.length + 1) none text.toList)

/-! ### Response wrappers -/

/-- Helper `jsonResponse(data, status)`: a JSON response (cache-control header
`public, max-age=3600`, not modelled). -/
def jsonResponse (b : Body) (status : Nat) : Response :=
  { status := status, body := b, etag := none }

/-- Helper `jsonResponseNoStore(data, status)`: a JSON response with
`Cache-Control: no-store` (header not modelled). -/
def jsonResponseNoStore (b : Body) (status : Nat) : Response :=
  { status := status, body := b, etag := none }

/-! ### handleSearch -/

/-- Handler `handleSearch` from worker-api.js. -/
def handleSearch (qParam : Option String) (st : St) : Response :=
  match qParam with
  | none => jsonResponse (.jsonErr "Missing query parameter") 400
  | some q =>
    if q = "" then jsonResponse (.jsonErr "Missing query parameter") 400
    else
      let searchTerm := jsTrim (jsToLower q)
      match st.vocabIndexObj with
      | none => jsonResponse (.jsonErr "Index not found") 404
      | some obj =>
        let results := obj.data.filter
          (fun w => jsStartsWith (jsToLower w.lemma_) searchTerm)
        jsonResponse (.searchOk searchTerm results.length (results.take 100)) 200

/-! ### handleGetDetail -/

/-- The preview built by `handleGetDetail`: the first five featured
sentences, topped up from the other sentences when fewer than five. -/
def detailPreviewOf (sd : SentencesData) : List SentenceVal :=
  if ((splitSentencesData sd).1.take 5).length < 5 then
    (splitSentencesData sd).1.take 5 ++
      (splitSentencesData sd).2.take (5 - ((splitSentencesData sd).1.take 5).length)
  else (splitSentencesData sd).1.take 5

/-- The total `featured.length + other.length`. -/
def detailTotalOf (sd : SentencesData) : Nat :=
  (splitSentencesData sd).1.length + (splitSentencesData sd).2.length

/-- Build the reduced detail record of `handleGetDetail` for a loaded
document. -/
def detailMinimalOf (lemma_ : String) (data : DetailDoc) : DetailMinimal :=
  { lemma_ := if data.lemma_ = "" then lemma_ else data.lemma_
    count := data.count
    meanings := jsUndef data.meanings
    pos_dist := jsUndef data.pos_dist
    zh_preview := jsUndef data.zh_preview
    definition := jsUndef data.definition
    sentences_preview := detailPreviewOf data.sentences
    sentences_total := detailTotalOf data.sentences
    sentences_next_offset :=
      min (detailTotalOf data.sentences) (detailPreviewOf data.sentences).length }

/-- Handler `handleGetDetail` from worker-api.js. -/
def handleGetDetail (lemma_ : String) (env : Env) (st : St) : Response × St :=
  if lemma_ = "" then (jsonResponse (.jsonErr "Missing lemma") 400, st)
  else
    match (if env.hasKV then st.kvDetail ("detail_" ++ lemma_) else none) with
    | some cached => (jsonResponse (.detailOk cached) 200, st)
    | none =>
      match st.detailObj lemma_ with
      | none => (jsonResponse (.jsonErr "Word not found") 404, st)
      | some data =>
        (jsonResponse (.detailOk (detailMinimalOf lemma_ data)) 200,
          if env.hasKV && decide (data.count > 10) then
            { st with kvDetail := fun k =>
                if k = "detail_" ++ lemma_ then some (detailMinimalOf lemma_ data)
                else st.kvDetail k }
          else st)

/-! ### handleGetSentences -/

/-- The limit computation of `handleGetSentences`: parse, default 30 on
NaN or non-positive, then clamp to at most 100. -/
def sentLimit (limitParam : Option String) : Nat :=
  match parseIntJS (jsOr limitParam "30") with
  | none => 30
  | some n => if n ≤ 0 then 30 else (min 100 (max 1 n)).toNat

/-- All sentences of a document in featured-then-other order. -/
def allSentencesOf (sd : SentencesData) : List SentenceVal :=
  (splitSentencesData sd).1 ++ (splitSentencesData sd).2

/-- The success body of `handleGetSentences` for a given sentence list,
limit and (possibly NaN) offset.  On a NaN offset (`none`) JS `slice`
treats both bounds as `0` (no items), `Math.min(total, NaN)` is `NaN`
(serialized as `null`) and `NaN < total` is false. -/
def sentencesPageBody (all : List SentenceVal) (limit : Nat) : Option Int → Body
  | some o =>
    .sentencesOk ((all.drop o.toNat).take limit) all.length
      (some (min (all.length : Int)
        (o + (((all.drop o.toNat).take limit).length : Int))))
      (decide ((min (all.length : Int)
        (o + (((all.drop o.toNat).take limit).length : Int))) < (all.length : Int)))
  | none => .sentencesOk [] all.length none false

/-- Handler `handleGetSentences` from worker-api.js. -/
def handleGetSentences (params : Params) (st : St) : Response :=
  if jsTrim (jsOr (params "lemma") "") = "" then
    jsonResponseNoStore (.jsonErr "Missing lemma") 400
  else
    match st.detailObj (jsTrim (jsOr (params "lemma") "")) with
    | none => jsonResponseNoStore (.jsonErr "Word not found") 404
    | some data =>
      jsonResponseNoStore
        (sentencesPageBody (allSentencesOf data.sentences) (sentLimit (params "limit"))
          ((parseIntJS (jsOr (params "offset") "0")).map (max 0)))
        200

/-! ### handleRandomWord -/

/-- The count used by the `freq_min`/`freq_max` range filter:
`indexMap[lemma]?.count || 0`. -/
def lemmaCount (indexMap : String → Option IndexEntry) (l : String) : Nat :=
  match indexMap l with
  | some w => w.count
  | none => 0

/-- The range predicate of the `freq_min`/`freq_max` filter; a `none`
bound models `NaN`, turned into minus/plus infinity by the code. -/
def countInRange (indexMap : String → Option IndexEntry)
    (fmin fmax : Option Int) (l : String) : Bool :=
  (match fmin with
   | some m => decide ((lemmaCount indexMap l : Int) ≥ m)
   | none => true) &&
  (match fmax with
   | some m => decide ((lemmaCount indexMap l : Int) ≤ m)
   | none => true)

/-- Stage 1 of `handleRandomWord` candidates: the frequency bucket when
the parameter names an existing bucket, otherwise all index lemmas. -/
def candFreq (sIdx : SearchIdx) (index : List IndexEntry) (freq : Option String) :
    List String :=
  match freq with
  | some f =>
    if f = "" then index.map (fun w => w.lemma_)
    else
      match jsGet sIdx.by_frequency f with
      | some ws => ws
      | none => index.map (fun w => w.lemma_)
  | none => index.map (fun w => w.lemma_)

/-- Stage 2: filter by part-of-speech bucket membership when the bucket
exists. -/
def candPos (sIdx : SearchIdx) (pos : Option String) (c0 : List String) :
    List String :=
  match pos with
  | some p =>
    if p = "" then c0
    else
      match jsGet sIdx.by_pos p with
      | some pws => c0.filter (fun l => decide (l ∈ pws))
      | none => c0
  | none => c0

/-- Stage 3: drop proper nouns when requested and a PROPN bucket exists. -/
def candPropn (sIdx : SearchIdx) (excludePropn : Bool) (c1 : List String) :
    List String :=
  if excludePropn then
    match jsGet sIdx.by_pos "PROPN" with
    | some pr => c1.filter (fun l => decide (l ∉ pr))
    | none => c1
  else c1

/-- Stage 4: keep lemmas whose count lies in the requested range when a
bound was given. -/
def candRange (indexMap : String → Option IndexEntry) (fmin fmax : Option Int)
    (c2 : List String) : List String :=
  if fmin.isSome || fmax.isSome then c2.filter (countInRange indexMap fmin fmax)
  else c2

/-- The candidate computation of `handleRandomWord`. -/
def candidatesOf (sIdx : SearchIdx) (index : List IndexEntry)
    (freq pos : Option String) (excludePropn : Bool)
    (fmin fmax : Option Int) : List String :=
  candRange (mkIndexMap index) fmin fmax
    (candPropn sIdx excludePropn (candPos sIdx pos (candFreq sIdx index freq)))

/-- The response of `handleRandomWord` once both index objects are
loaded; `pick` is the oracle for the single `Math.random()` draw. -/
def randomRespond (pick : Nat) (params : Params) (st : St)
    (sIdx : SearchIdx) (index : List IndexEntry) : Response :=
  match candidatesOf sIdx index (params "freq") (params "pos")
      (params "exclude_propn" == some "true")
      (parseIntJS (jsOr (params "freq_min") ""))
      (parseIntJS (jsOr (params "freq_max") "")) with
  | [] => jsonResponseNoStore (.jsonErr "No words found matching criteria") 404
  | c :: cs =>
    match st.detailObj ((c :: cs).getD (pick % (c :: cs).length) "") with
    | none => jsonResponseNoStore (.jsonErr "Word not found") 404
    | some data => jsonResponseNoStore (.randomOk data) 200

/-- Handler `handleRandomWord` from worker-api.js.  A missing
`vocab_index.json` makes `.json()` throw on `null`, caught as a 500. -/
def handleRandomWord (randomPick : Nat) (params : Params) (st : St) : Response :=
  match st.searchIndexObj with
  | none => jsonResponseNoStore (.jsonErr "Search index not found") 404
  | some sObj =>
    match st.vocabIndexObj with
    | none => jsonResponseNoStore (.jsonErr "Failed to get random word") 500
    | some vObj => randomRespond randomPick params st sObj.data vObj.data

/-! ### handleGenerateQuiz -/

/-- Random oracles for one quiz request: the candidate shuffle and the
per-question `generateChoiceOptions` oracles (indexed by the number of
questions built so far). -/
structure QuizRng where
  shuffleCands : Nat → Nat
  perQuestion : Nat → ChoiceRng

/-- The sentences array the fill branch extracts from a detail document
(`Array.isArray(detail.sentences)` or a `featured`/`other` object;
an array-valued `featured` field is always truthy, even empty). -/
def sentencesArrayOf : SentencesData → List SentenceVal
  | .arr s => s
  | .obj f o =>
    match f with
    | some fs => fs ++ o.getD []
    | none => []
  | .absent => []

/-- Model of `sentenceObj.text || sentenceObj`: a bare string is its own text; an
object with an empty `text` falls back to the object itself, on which
`.replace` throws (`none` models the thrown TypeError). -/
def sentenceTextOf : SentenceVal → Option String
  | .str s => some s
  | .obj t => if t = "" then none else some t

/-- The loop guard `questions.length >= count`; with a NaN count
(`none`) the comparison is always false. -/
def jsCountReached (len : Nat) (countOpt : Option Int) : Bool :=
  match countOpt with
  | some c => decide ((len : Int) ≥ c)
  | none => false

/-- Build one fill-in question. -/
def fillQuestion (rng : QuizRng) (all : List String)
    (indexMap : String → Option IndexEntry) (l : String) (text : String)
    (qIdx : Nat) : Question :=
  Question.fill l (blankVariants (getInflectionVariants l) text)
    (generateChoiceOptions (rng.perQuestion qIdx) l all indexMap) l

/-- The fill branch loop of `handleGenerateQuiz`; `Except.error` models
the TypeError thrown on a sentence object with an empty text. -/
def fillLoop (rng : QuizRng) (detailStore : String → Option DetailDoc)
    (indexMap : String → Option IndexEntry) (countOpt : Option Int)
    (all : List String) : List String → List Question → Except Unit (List Question)
  | [], qs => .ok qs
  | l :: rest, qs =>
    if jsCountReached qs.length countOpt then .ok qs
    else
      match indexMap l with
      | none => fillLoop rng detailStore indexMap countOpt all rest qs
      | some _ =>
        match detailStore l with
        | none => fillLoop rng detailStore indexMap countOpt all rest qs
        | some detail =>
          match sentencesArrayOf detail.sentences with
          | [] => fillLoop rng detailStore indexMap countOpt all rest qs
          | s0 :: _ =>
            match sentenceTextOf s0 with
            | none => .error ()
            | some text =>
              fillLoop rng detailStore indexMap countOpt all rest
                (qs ++ [fillQuestion rng all indexMap l text qs.length])

/-- The `posShort` table of the spelling branch. -/
def posShortOf (p : String) : String :=
  if p = "NOUN" then "n."
  else if p = "VERB" then "v."
  else if p = "ADJ" then "adj."
  else if p = "ADV" then "adv."
  else ""

/-- The spelling hint string; `lemma[0]` of an empty string is
`undefined`, which the template literal renders as "undefined". -/
def spellingHint (l : String) : String :=
  toString l.length ++ " 個字母，以 " ++
    (match l.toList with
     | [] => "undefined"
     | c :: _ => String.mk [c]) ++ " 開頭"

/-- The choice/spelling branch loop of `handleGenerateQuiz`. -/
def choiceLoop (rng : QuizRng) (indexMap : String → Option IndexEntry)
    (type : String) (all : List String) :
    List String → List Question → List Question
  | [], qs => qs
  | l :: rest, qs =>
    match indexMap l with
    | none => choiceLoop rng indexMap type all rest qs
    | some wordInfo =>
      if type = "choice" then
        choiceLoop rng indexMap type all rest
          (qs ++ [Question.choice l wordInfo.zh_preview
            (generateChoiceOptions (rng.perQuestion qs.length) l all indexMap) l])
      else if type = "spelling" then
        choiceLoop rng indexMap type all rest
          (qs ++ [Question.spelling l
            (jsTrim (posShortOf wordInfo.primary_pos ++ " " ++ wordInfo.zh_preview))
            l (spellingHint l) l])
      else choiceLoop rng indexMap type all rest qs

/-- The clamped question count: `Math.min(100, Math.max(1, parseInt(...)))`
(`none` models NaN). -/
def quizCount (params : Params) : Option Int :=
  (parseIntJS (jsOr (params "count") "10")).map (fun n => min 100 (max 1 n))

/-- The requested quiz type: `searchParams.get("type") || "choice"`. -/
def quizType (params : Params) : String :=
  jsOr (params "type") "choice"

/-- The candidate filtering chain of `handleGenerateQuiz`: all distinct
index lemmas, filtered by part-of-speech union, proper-noun exclusion
and count range; a non-empty `lemmas` parameter replaces the chain by
the requested lemmas present in the index. -/
def quizCandidates (sIdx : SearchIdx) (index : List IndexEntry) (params : Params) :
    List String :=
  let indexMap := mkIndexMap index
  let posParam := (jsSplit ',' (jsOr (params "pos") "")).filter (fun s => decide (s ≠ ""))
  let excludePropn := params "exclude_propn" == some "true"
  let lemmasParam := (jsSplit ',' (jsOr (params "lemmas") "")).filter (fun s => decide (s ≠ ""))
  let fmin := parseIntJS (jsOr (params "freq_min") "")
  let fmax := parseIntJS (jsOr (params "freq_max") "")
  let keys := objectKeysOf (index.map (fun w => w.lemma_))
  let c1 :=
    if posParam.isEmpty then keys
    else
      let posSet := posParam.foldl
        (fun acc p => acc ++ (jsGet sIdx.by_pos p).getD []) []
      keys.filter (fun l => decide (l ∈ posSet))
  let c2 :=
    if excludePropn then
      match jsGet sIdx.by_pos "PROPN" with
      | some pr => c1.filter (fun l => decide (l ∉ pr))
      | none => c1
    else c1
  let c3 :=
    if fmin.isSome || fmax.isSome then c2.filter (countInRange indexMap fmin fmax)
    else c2
  if lemmasParam.isEmpty then c3
  else lemmasParam.filter (fun l => (indexMap l).isSome)

/-- The shuffled candidate list of one quiz request. -/
def quizShuffled (rng : QuizRng) (sIdx : SearchIdx) (index : List IndexEntry)
    (params : Params) : List String :=
  shuffleArray rng.shuffleCands (quizCandidates sIdx index params)

/-- The response assembly of `handleGenerateQuiz` once both index
objects are loaded. -/
def quizRespond (rng : QuizRng) (params : Params) (st : St)
    (sIdx : SearchIdx) (index : List IndexEntry) : Response :=
  if (quizCandidates sIdx index params).isEmpty then
    jsonResponseNoStore (.quizOk (quizType params) 0 []) 200
  else if quizType params = "fill" then
    match fillLoop rng st.detailObj (mkIndexMap index) (quizCount params)
        (quizShuffled rng sIdx index params) (quizShuffled rng sIdx index params) [] with
    | .error _ => jsonResponseNoStore (.jsonErr "Failed to generate quiz") 500
    | .ok qs => jsonResponseNoStore (.quizOk (quizType params) qs.length qs) 200
  else
    jsonResponseNoStore
      (.quizOk (quizType params)
        (choiceLoop rng (mkIndexMap index) (quizType params)
          (quizShuffled rng sIdx index params)
          ((quizShuffled rng sIdx index params).take
            (match quizCount params with | some c => c.toNat | none => 0)) []).length
        (choiceLoop rng (mkIndexMap index) (quizType params)
          (quizShuffled rng sIdx index params)
          ((quizShuffled rng sIdx index params).take
            (match quizCount params with | some c => c.toNat | none => 0)) []))
      200

/-- Handler `handleGenerateQuiz` from worker-api.js.  A missing
`search_index.json` or `vocab_index.json` makes `.json()` throw on
`null`, caught as a 500. -/
def handleGenerateQuiz (rng : QuizRng) (params : Params) (st : St) : Response :=
  match st.searchIndexObj with
  | none => jsonResponseNoStore (.jsonErr "Failed to generate quiz") 500
  | some sObj =>
    match st.vocabIndexObj with
    | none => jsonResponseNoStore (.jsonErr "Failed to generate quiz") 500
    | some vObj => quizRespond rng params st sObj.data vObj.data

/-! ### handleGetIndex / handleGetSearchIndex / handleGetAudio -/

/-- The edge-cache hit branch shared by the index and search-index
handlers: 304 when both the If-None-Match header and the cached ETag are
non-empty and equal, else the cached response as-is. -/
def edgeHitResponse (inm : Option String) (cached : Response) : Response :=
  match inm, cached.etag with
  | some i, some e =>
    if i ≠ "" && e ≠ "" && i == e then { status := 304, body := .empty, etag := some e }
    else cached
  | _, _ => cached

/-- Handler `handleGetIndex` from worker-api.js (Last-Modified and Cache-Control
headers not modelled). -/
def handleGetIndex (req : Request) (env : Env) (st : St) : Response × St :=
  match st.edgeIndex with
  | some cached => (edgeHitResponse req.ifNoneMatch cached, st)
  | none =>
    let kvHit : Option (List IndexEntry) :=
      if env.hasKV then st.kvVocabIndex else none
    match kvHit with
    | some cachedData =>
      let resp := jsonResponse (.indexData cachedData) 200
      (resp, { st with edgeIndex := some resp })
    | none =>
      match st.vocabIndexObj with
      | none => (jsonResponse (.jsonErr "Index not found") 404, st)
      | some obj =>
        let st1 := if env.hasKV then { st with kvVocabIndex := some obj.data } else st
        let resp : Response :=
          { status := 200, body := .indexData obj.data
            etag := if obj.etag = "" then none else some obj.etag }
        (resp, { st1 with edgeIndex := some resp })

/-- Handler `handleGetSearchIndex` from worker-api.js. -/
def handleGetSearchIndex (req : Request) (env : Env) (st : St) : Response × St :=
  match st.edgeSearch with
  | some cached => (edgeHitResponse req.ifNoneMatch cached, st)
  | none =>
    let kvHit : Option SearchIdx :=
      if env.hasKV then st.kvSearchIndex else none
    match kvHit with
    | some cachedData =>
      let resp := jsonResponse (.searchIndexData cachedData) 200
      (resp, { st with edgeSearch := some resp })
    | none =>
      match st.searchIndexObj with
      | none => (jsonResponse (.jsonErr "Search index not found") 404, st)
      | some obj =>
        let st1 := if env.hasKV then { st with kvSearchIndex := some obj.data } else st
        let resp : Response :=
          { status := 200, body := .searchIndexData obj.data
            etag := if obj.etag = "" then none else some obj.etag }
        (resp, { st1 with edgeSearch := some resp })

/-- Handler `handleGetAudio` from worker-api.js: plain-text errors, audio body
on success. -/
def handleGetAudio (pathname : String) (env : Env) (st : St) : Response :=
  let audioPath := if jsStartsWith pathname "/audio/" then jsDrop 7 pathname else pathname
  if !env.hasAudioBucket then
    { status := 503, body := .text "Audio service not available", etag := none }
  else
    match st.audioObj audioPath with
    | none => { status := 404, body := .text "Audio not found", etag := none }
    | some _ => { status := 200, body := .audioStream, etag := none }

/-! ### The two fetch entry points -/

/-- All random oracles of one API request. -/
structure Rng where
  randomPick : Nat
  quiz : QuizRng

/-- Model of `url.pathname.split("/").pop()`. -/
def lastSegOf (path : String) : String :=
  (jsSplit '/' path).getLastD ""

/-- The fetch handler of the API worker (src/worker-api.js). -/
def apiFetch (rng : Rng) (req : Request) (env : Env) (st : St) : Response × St :=
  if req.method = "OPTIONS" then ({ status := 204, body := .empty, etag := none }, st)
  else if req.method ≠ "GET" then (jsonResponse (.jsonErr "Method not allowed") 405, st)
  else if req.path = "/api/vocab/index" then handleGetIndex req env st
  else if req.path = "/api/vocab/search" then (handleSearch (req.params "q") st, st)
  else if jsStartsWith req.path "/api/vocab/detail/" then
    handleGetDetail (lastSegOf req.path) env st
  else if req.path = "/api/vocab/random" then
    (handleRandomWord rng.randomPick req.params st, st)
  else if req.path = "/api/quiz/generate" then
    (handleGenerateQuiz rng.quiz req.params st, st)
  else if req.path = "/api/search-index" then handleGetSearchIndex req env st
  else if req.path = "/api/vocab/sentences" then (handleGetSentences req.params st, st)
  else if jsStartsWith req.path "/audio/" then (handleGetAudio req.path env st, st)
  else if req.path = "/" then (jsonResponse .apiInfo 200, st)
  else (jsonResponse (.jsonErr "Not found") 404, st)

/-- The fetch handler of the standalone audio worker (src/worker.js).
The second component is the list of object-store keys fetched while
handling the request. -/
def audioWorkerFetch (req : Request) (bucket : String → Option Unit) :
    Response × List String :=
  let objectKey := jsDrop 1 req.path
  if req.method ≠ "GET" then
    ({ status := 405, body := .text "Method Not Allowed", etag := none }, [])
  else if objectKey = "" || !(jsEndsWith objectKey ".mp3") then
    ({ status := 400, body := .text "Invalid request. Please request an .mp3 file.", etag := none }, [])
  else
    match bucket objectKey with
    | none =>
      ({ status := 404, body := .text ("Object Not Found: " ++ objectKey), etag := none }, [objectKey])
    | some _ => ({ status := 200, body := .audioStream, etag := none }, [objectKey])

/-! ### Theorems: shuffleArray (C9) -/

theorem shuffleArray_perm (rand : Nat → Nat) (array : List α) :
    (shuffleArray rand array).Perm array :=
  shuffleGo_perm rand (array.length - 1) array

/-- Claim C9: `shuffleArray` returns a permutation of its input: the
result has the same length and the same multiset of elements (stated as
`List.Perm`, which implies both).  The source operates on the copy
`[...array]`, so in this pure embedding the input list is a separate,
untouched value. -/
theorem shuffleArray_is_permutation (rand : Nat → Nat) (array : List α) :
    (shuffleArray rand array).Perm array ∧
    (shuffleArray rand array).length = array.length :=
  ⟨shuffleArray_perm rand array, (shuffleArray_perm rand array).length_eq⟩

/-! ### Theorems: generateChoiceOptions (C10) -/

theorem getD_cons_eraseIdx_perm (ow : List String) (j : Nat) (h : j < ow.length) :
    (ow.getD j "" :: ow.eraseIdx j).Perm ow := by
  induction ow generalizing j with
  | nil => simp at h
  | cons c cs ih =>
    cases j with
    | zero => simp
    | succ k =>
      rw [List.getD_cons_succ, List.eraseIdx_cons_succ]
      have hk : k < cs.length := by simpa using h
      have h1 : (cs.getD k "" :: c :: cs.eraseIdx k).Perm (c :: cs.getD k "" :: cs.eraseIdx k) :=
        List.Perm.swap c (cs.getD k "") _
      exact h1.trans ((ih k hk).cons c)

theorem pickLoop_append_perm (pick : Nat → Nat) (k : Nat) (ow : List String) :
    ((pickLoop pick k ow).1 ++ (pickLoop pick k ow).2).Perm ow := by
  induction k generalizing ow with
  | zero => simp [pickLoop]
  | succ k ih =>
    match ow with
    | [] => simp [pickLoop]
    | x :: rest =>
      have hlt : pick k % (x :: rest).length < (x :: rest).length :=
        Nat.mod_lt _ (by simp)
      have h1 := ih ((x :: rest).eraseIdx (pick k % (x :: rest).length))
      have h2 := getD_cons_eraseIdx_perm (x :: rest) (pick k % (x :: rest).length) hlt
      simp only [pickLoop]
      exact (h1.cons _).trans h2

theorem pickLoop_rest_nil (pick : Nat → Nat) (k : Nat) (ow : List String)
    (h : ow.length ≤ k) : (pickLoop pick k ow).2 = [] := by
  induction k generalizing ow with
  | zero =>
    have : ow = [] := List.eq_nil_of_length_eq_zero (Nat.le_zero.mp h)
    subst this
    rfl
  | succ k ih =>
    match ow with
    | [] => rfl
    | x :: rest =>
      have hlt : pick k % (x :: rest).length < (x :: rest).length :=
        Nat.mod_lt _ (by simp)
      have hlen : ((x :: rest).eraseIdx (pick k % (x :: rest).length)).length ≤ k := by
        rw [List.length_eraseIdx]
        simp only [hlt, if_pos]
        omega
      simpa only [pickLoop] using ih _ hlen

theorem pickLoop_fst_length (pick : Nat → Nat) (k : Nat) (ow : List String) :
    (pickLoop pick k ow).1.length ≤ k := by
  induction k generalizing ow with
  | zero => simp [pickLoop]
  | succ k ih =>
    match ow with
    | [] => simp [pickLoop]
    | x :: rest =>
      simpa only [pickLoop, List.length_cons, Nat.add_le_add_iff_right] using
        ih ((x :: rest).eraseIdx (pick k % (x :: rest).length))

theorem generateChoiceOptions_values (rng : ChoiceRng) (correct : String)
    (cands : List String) (indexMap : String → Option IndexEntry) :
    (generateChoiceOptions rng correct cands indexMap).map ChoiceOption.value =
      shuffleArray rng.shuffle
        (correct :: (pickLoop rng.pick 3
          (cands.filter (fun w => decide (w ≠ correct)))).1) := by
  unfold generateChoiceOptions
  rw [List.map_map]
  exact List.map_id' _

theorem picked_mem_other {pick : Nat → Nat} {correct : String}
    {cands : List String} {w : String}
    (h : w ∈ (pickLoop pick 3 (cands.filter (fun w => decide (w ≠ correct)))).1) :
    w ∈ cands.filter (fun w => decide (w ≠ correct)) := by
  have hp := pickLoop_append_perm pick 3 (cands.filter (fun w => decide (w ≠ correct)))
  exact hp.mem_iff.mp (List.mem_append.mpr (Or.inl h))

theorem picked_ne_correct {pick : Nat → Nat} {correct : String}
    {cands : List String} {w : String}
    (h : w ∈ (pickLoop pick 3 (cands.filter (fun w => decide (w ≠ correct)))).1) :
    w ≠ correct := by
  have := (List.mem_filter.mp (picked_mem_other h)).2
  simpa using this

/-- Claim C10: `generateChoiceOptions` returns at most 4 options, the
correct word appears exactly once among their values, every other value
is a candidate different from the correct word, the non-correct values
form a sub-multiset of the non-correct candidates (distractors are
picked without repeating positions), and when fewer than 3 candidates
differ from the correct word all of them appear among the options. -/
theorem generateChoiceOptions_spec (rng : ChoiceRng) (correct : String)
    (cands : List String) (indexMap : String → Option IndexEntry) :
    (generateChoiceOptions rng correct cands indexMap).length ≤ 4 ∧
    ((generateChoiceOptions rng correct cands indexMap).map ChoiceOption.value).count correct = 1 ∧
    (∀ o ∈ generateChoiceOptions rng correct cands indexMap,
      o.value = correct ∨ (o.value ∈ cands ∧ o.value ≠ correct)) ∧
    (((generateChoiceOptions rng correct cands indexMap).map ChoiceOption.value).filter
        (fun w => decide (w ≠ correct))).Subperm
      (cands.filter (fun w => decide (w ≠ correct))) ∧
    ((cands.filter (fun w => decide (w ≠ correct))).length < 3 →
      ∀ w ∈ cands.filter (fun w => decide (w ≠ correct)),
        w ∈ (generateChoiceOptions rng correct cands indexMap).map ChoiceOption.value) := by
  have hv := generateChoiceOptions_values rng correct cands indexMap
  have hshuf : (shuffleArray rng.shuffle
      (correct :: (pickLoop rng.pick 3
        (cands.filter (fun w => decide (w ≠ correct)))).1)).Perm
      (correct :: (pickLoop rng.pick 3
        (cands.filter (fun w => decide (w ≠ correct)))).1) :=
    shuffleArray_perm _ _
  refine ⟨?_, ?_, ?_, ?_, ?_⟩
  · have hlen : ((generateChoiceOptions rng correct cands indexMap).map
        ChoiceOption.value).length =
        1 + (pickLoop rng.pick 3 (cands.filter (fun w => decide (w ≠ correct)))).1.length := by
      rw [hv, hshuf.length_eq]
      simp [Nat.add_comm]
    have hple := pickLoop_fst_length rng.pick 3 (cands.filter (fun w => decide (w ≠ correct)))
    have : ((generateChoiceOptions rng correct cands indexMap).map ChoiceOption.value).length ≤ 4 := by
      omega
    simpa using this
  · rw [hv, hshuf.count_eq]
    have hz : ((pickLoop rng.pick 3
        (cands.filter (fun w => decide (w ≠ correct)))).1).count correct = 0 :=
      List.count_eq_zero.mpr (fun hmem => (picked_ne_correct hmem) rfl)
    rw [List.count_cons, hz]
    simp
  · intro o ho
    unfold generateChoiceOptions at ho
    obtain ⟨l, hl, rfl⟩ := List.mem_map.mp ho
    have hl2 : l ∈ correct :: (pickLoop rng.pick 3
        (cands.filter (fun w => decide (w ≠ correct)))).1 :=
      (shuffleArray_perm _ _).mem_iff.mp hl
    rcases List.mem_cons.mp hl2 with h | h
    · exact Or.inl h
    · refine Or.inr ?_
      have hmem := List.mem_filter.mp (picked_mem_other h)
      exact ⟨hmem.1, picked_ne_correct h⟩
  · rw [hv]
    have hfe : ((correct :: (pickLoop rng.pick 3
        (cands.filter (fun w => decide (w ≠ correct)))).1).filter
        (fun w => decide (w ≠ correct))) =
        (pickLoop rng.pick 3 (cands.filter (fun w => decide (w ≠ correct)))).1 := by
      rw [List.filter_cons_of_neg (by simp)]
      exact List.filter_eq_self.mpr (fun a ha => by
        have := picked_ne_correct ha
        simpa using this)
    have h1 : ((shuffleArray rng.shuffle
        (correct :: (pickLoop rng.pick 3
          (cands.filter (fun w => decide (w ≠ correct)))).1)).filter
        (fun w => decide (w ≠ correct))).Perm
        (pickLoop rng.pick 3 (cands.filter (fun w => decide (w ≠ correct)))).1 := by
      have := (shuffleArray_perm rng.shuffle
        (correct :: (pickLoop rng.pick 3
          (cands.filter (fun w => decide (w ≠ correct)))).1)).filter
        (fun w => decide (w ≠ correct))
      rw [hfe] at this
      exact this
    have h2 : ((pickLoop rng.pick 3
        (cands.filter (fun w => decide (w ≠ correct)))).1).Subperm
        (cands.filter (fun w => decide (w ≠ correct))) := by
      have hap := pickLoop_append_perm rng.pick 3 (cands.filter (fun w => decide (w ≠ correct)))
      exact ((List.sublist_append_left _ _).subperm).trans hap.subperm
    exact (h1.subperm).trans h2
  · intro hlt w hw
    have hle : (cands.filter (fun w => decide (w ≠ correct))).length ≤ 3 :=
      Nat.le_of_lt (Nat.lt_of_lt_of_le hlt (by omega))
    have hnil := pickLoop_rest_nil rng.pick 3 _ hle
    have hap := pickLoop_append_perm rng.pick 3 (cands.filter (fun w => decide (w ≠ correct)))
    rw [hnil, List.append_nil] at hap
    have hwp : w ∈ (pickLoop rng.pick 3 (cands.filter (fun w => decide (w ≠ correct)))).1 :=
      hap.mem_iff.mpr hw
    rw [hv]
    exact hshuf.mem_iff.mpr (List.mem_cons.mpr (Or.inr hwp))

/-- Witness for C10 at a concrete input: with candidates `["a", "b"]`
and correct word `"a"`, fewer than 3 other words exist and `"b"` indeed
appears among the option values. -/
theorem generateChoiceOptions_spec_witness :
    ((["a", "b"].filter (fun w => decide (w ≠ "a"))).length < 3) ∧
    "b" ∈ (generateChoiceOptions
      { pick := fun _ => 0, shuffle := fun _ => 0 } "a" ["a", "b"]
      (fun _ => none)).map ChoiceOption.value :=
  ⟨by decide,
    (generateChoiceOptions_spec { pick := fun _ => 0, shuffle := fun _ => 0 }
      "a" ["a", "b"] (fun _ => none)).2.2.2.2 (by decide) "b" (by decide)⟩

/-! ### Concrete fixtures used by witnesses and counterexamples -/

def entryApple : IndexEntry :=
  { lemma_ := "apple", count := 12, zh_preview := "蘋果", primary_pos := "NOUN" }

def entryBanana : IndexEntry :=
  { lemma_ := "banana", count := 2, zh_preview := "香蕉", primary_pos := "NOUN" }

def docApple : DetailDoc :=
  { lemma_ := "", count := 12, meanings := none, pos_dist := none
    zh_preview := none, definition := none
    sentences := .arr [.str "An apple a day.", .str "Apples are red."] }

/-- A small concrete world: two index entries, one detail document,
empty caches. -/
def stFix : St :=
  { vocabIndexObj := some { data := [entryApple, entryBanana], etag := "e1" }
    searchIndexObj := some { data := { by_frequency := [], by_pos := [] }, etag := "" }
    detailObj := fun l => if l = "apple" then some docApple else none
    audioObj := fun _ => none
    kvVocabIndex := none
    kvSearchIndex := none
    kvDetail := fun _ => none
    edgeIndex := none
    edgeSearch := none }

/-! ### Theorems: handleSearch (C3) -/

/-- Claim C3: for a non-empty query, when the vocabulary index exists,
`handleSearch` answers 200 with the lowercased-and-trimmed query, the
count of all index entries whose lowercased lemma starts with that term,
and the first 100 such entries in index order. -/
theorem handleSearch_spec (q : String) (st : St) (obj : IndexObj)
    (hq : q ≠ "") (hidx : st.vocabIndexObj = some obj) :
    handleSearch (some q) st =
      jsonResponse
        (.searchOk (jsTrim (jsToLower q))
          (obj.data.filter
            (fun w => jsStartsWith (jsToLower w.lemma_) (jsTrim (jsToLower q)))).length
          ((obj.data.filter
            (fun w => jsStartsWith (jsToLower w.lemma_) (jsTrim (jsToLower q)))).take 100))
        200 := by
  simp only [handleSearch]
  rw [if_neg hq, hidx]

/-- Witness for C3 at a concrete input. -/
theorem handleSearch_spec_witness :
    ("AP" ≠ "") ∧
    handleSearch (some "AP") stFix = jsonResponse (.searchOk "ap" 1 [entryApple]) 200 :=
  ⟨by decide, by
    rw [handleSearch_spec "AP" stFix { data := [entryApple, entryBanana], etag := "e1" }
      (by decide) rfl]
    decide⟩

/-! ### Theorems: handleGetDetail (C5) -/

theorem preview_take (f o : List SentenceVal) :
    (if (f.take 5).length < 5 then f.take 5 ++ o.take (5 - (f.take 5).length)
     else f.take 5) = (f ++ o).take 5 := by
  rw [List.take_append_eq_append_take]
  rcases Nat.lt_or_ge f.length 5 with h | h
  · have hl : (f.take 5).length = f.length := by rw [List.length_take]; omega
    rw [if_pos (by omega), hl]
  · have hl : (f.take 5).length = 5 := by rw [List.length_take]; omega
    have h0 : 5 - f.length = 0 := by omega
    rw [if_neg (by omega), h0]
    simp

/-- Claim C5: for an existing detail document (on a KV-cache miss),
`handleGetDetail` answers with the reduced record whose lemma defaults
to the requested lemma, whose preview is the first five sentences in
featured-then-other order, whose total is the featured count plus the
other count, and whose next offset is `min total preview.length`. -/
theorem handleGetDetail_preview_spec (lem : String) (env : Env) (st : St)
    (doc : DetailDoc)
    (hdoc : st.detailObj lem = some doc) (hlem : lem ≠ "")
    (hmiss : env.hasKV = false ∨ st.kvDetail ("detail_" ++ lem) = none) :
    (handleGetDetail lem env st).1 =
      jsonResponse (.detailOk (detailMinimalOf lem doc)) 200 ∧
    (detailMinimalOf lem doc).lemma_ =
      (if doc.lemma_ = "" then lem else doc.lemma_) ∧
    (detailMinimalOf lem doc).sentences_preview =
      ((splitSentencesData doc.sentences).1 ++ (splitSentencesData doc.sentences).2).take 5 ∧
    (detailMinimalOf lem doc).sentences_preview.length ≤ 5 ∧
    (detailMinimalOf lem doc).sentences_total =
      (splitSentencesData doc.sentences).1.length +
        (splitSentencesData doc.sentences).2.length ∧
    (detailMinimalOf lem doc).sentences_next_offset =
      min (detailMinimalOf lem doc).sentences_total
        (detailMinimalOf lem doc).sentences_preview.length := by
  have hprev : (detailMinimalOf lem doc).sentences_preview =
      ((splitSentencesData doc.sentences).1 ++ (splitSentencesData doc.sentences).2).take 5 := by
    show detailPreviewOf doc.sentences = _
    unfold detailPreviewOf
    exact preview_take _ _
  refine ⟨?_, rfl, hprev, ?_, rfl, rfl⟩
  · unfold handleGetDetail
    rw [if_neg hlem]
    have hch : (if env.hasKV then st.kvDetail ("detail_" ++ lem) else none) = none := by
      rcases hmiss with h | h
      · simp [h]
      · rcases Bool.eq_false_or_eq_true env.hasKV with hkv | hkv <;> simp [hkv, h]
    rw [hch, hdoc]
  · rw [hprev, List.length_take]
    omega

/-- Witness for C5 at a concrete input. -/
theorem handleGetDetail_preview_spec_witness :
    (stFix.detailObj "apple" = some docApple) ∧
    (handleGetDetail "apple" { hasKV := false, hasAudioBucket := false } stFix).1 =
      jsonResponse (.detailOk (detailMinimalOf "apple" docApple)) 200 :=
  ⟨rfl,
    (handleGetDetail_preview_spec "apple" { hasKV := false, hasAudioBucket := false }
      stFix docApple rfl (by decide) (Or.inl rfl)).1⟩

/-! ### Theorems: handleGetSentences (C4) -/

/-- The limit rule exactly as the claim words it: "the limit parameter
clamped to [1, 100]". -/
def specLimitClamp (n : Int) : Int :=
  min 100 (max 1 n)

/-- Claim C4 (amended): for an existing document and a parsed offset
`off >= 0`, the items are the slice `[off, off + L)` of the sentences in
featured-then-other order, where `L` is 30 when the limit parameter is
absent, non-numeric or non-positive and `min limit 100` otherwise
(`sentLimit`); the total is the full sentence count, the next offset is
`min total (off + items.length)` and `has_more` holds exactly when that
next offset is below the total. -/
theorem handleGetSentences_paging (params : Params) (st : St)
    (lem : String) (doc : DetailDoc) (off : Int)
    (hlem : jsTrim (jsOr (params "lemma") "") = lem) (hne : lem ≠ "")
    (hdoc : st.detailObj lem = some doc)
    (hoffp : parseIntJS (jsOr (params "offset") "0") = some off)
    (hoff : 0 ≤ off) :
    handleGetSentences params st =
      jsonResponseNoStore
        (.sentencesOk
          (((allSentencesOf doc.sentences).drop off.toNat).take (sentLimit (params "limit")))
          (allSentencesOf doc.sentences).length
          (some (min ((allSentencesOf doc.sentences).length : Int)
            (off + ((((allSentencesOf doc.sentences).drop off.toNat).take
              (sentLimit (params "limit"))).length : Int))))
          (decide ((min ((allSentencesOf doc.sentences).length : Int)
            (off + ((((allSentencesOf doc.sentences).drop off.toNat).take
              (sentLimit (params "limit"))).length : Int))) <
            ((allSentencesOf doc.sentences).length : Int))))
        200 := by
  unfold handleGetSentences
  rw [hlem, if_neg hne, hdoc, hoffp]
  rw [show (some off).map (max 0) = some (max 0 off) from rfl, max_eq_right hoff]
  rfl

def sentParamsW : Params := fun s =>
  if s = "lemma" then some "apple"
  else if s = "offset" then some "1"
  else if s = "limit" then some "1" else none

/-- Witness for C4 at a concrete input: offset 1, limit 1 on the
two-sentence document. -/
theorem handleGetSentences_paging_witness :
    (stFix.detailObj "apple" = some docApple ∧ (0 : Int) ≤ 1) ∧
    handleGetSentences sentParamsW stFix =
      jsonResponseNoStore
        (.sentencesOk [SentenceVal.str "Apples are red."] 2 (some 2) false) 200 :=
  ⟨⟨rfl, by decide⟩, by
    rw [handleGetSentences_paging sentParamsW stFix "apple" docApple 1 (by decide)
      (by decide) rfl (by decide) (by decide)]
    decide⟩

def sentParamsZ : Params := fun s =>
  if s = "lemma" then some "apple"
  else if s = "limit" then some "0" else none

/-- Claim C4 counterexample: with limit parameter `0` the code resets
the limit to the default 30 and serves both sentences, while the claim
(limit clamped to [1, 100], giving `L = 1`) predicts a single item with
next offset 1 and `has_more` true. -/
theorem handleGetSentences_limit_zero :
    handleGetSentences sentParamsZ stFix =
      jsonResponseNoStore
        (.sentencesOk [SentenceVal.str "An apple a day.", SentenceVal.str "Apples are red."]
          2 (some 2) false) 200 ∧
    specLimitClamp 0 = 1 ∧
    (((allSentencesOf docApple.sentences).drop 0).take (specLimitClamp 0).toNat).length = 1 ∧
    handleGetSentences sentParamsZ stFix ≠
      jsonResponseNoStore
        (.sentencesOk (((allSentencesOf docApple.sentences).drop 0).take (specLimitClamp 0).toNat)
          2 (some 1) true) 200 := by
  refine ⟨by decide, by decide, by decide, by decide⟩

/-! ### Theorems: standalone audio worker (C8) -/

/-- Claim C8: the standalone audio worker answers every non-GET request
with 405, every GET request whose object key (the path without the
leading slash) is empty or does not end in ".mp3" with 400, and consults
the object store only for requests that pass both checks. -/
theorem audioWorkerFetch_spec (req : Request) (bucket : String → Option Unit) :
    (req.method ≠ "GET" →
      (audioWorkerFetch req bucket).1.status = 405 ∧
      (audioWorkerFetch req bucket).2 = []) ∧
    (req.method = "GET" →
      (jsDrop 1 req.path = "" ∨ jsEndsWith (jsDrop 1 req.path) ".mp3" = false) →
      (audioWorkerFetch req bucket).1.status = 400 ∧
      (audioWorkerFetch req bucket).2 = []) ∧
    ((audioWorkerFetch req bucket).2 ≠ [] →
      req.method = "GET" ∧ jsDrop 1 req.path ≠ "" ∧
      jsEndsWith (jsDrop 1 req.path) ".mp3" = true) := by
  refine ⟨?_, ?_, ?_⟩
  · intro h
    unfold audioWorkerFetch
    rw [if_pos h]
    exact ⟨rfl, rfl⟩
  · intro hm hk
    unfold audioWorkerFetch
    rw [if_neg (by simp [hm])]
    have hcond : (decide (jsDrop 1 req.path = "") ||
        !(jsEndsWith (jsDrop 1 req.path) ".mp3")) = true := by
      rcases hk with h | h
      · simp [h]
      · simp [h]
    rw [if_pos hcond]
    exact ⟨rfl, rfl⟩
  · intro hne
    have hm : req.method = "GET" := by
      by_contra hm
      unfold audioWorkerFetch at hne
      rw [if_pos hm] at hne
      exact hne rfl
    have hkey : ¬ ((decide (jsDrop 1 req.path = "") ||
        !(jsEndsWith (jsDrop 1 req.path) ".mp3")) = true) := by
      intro hk
      unfold audioWorkerFetch at hne
      rw [if_neg (by simp [hm]), if_pos hk] at hne
      exact hne rfl
    simp only [Bool.or_eq_true, decide_eq_true_eq, Bool.not_eq_true', not_or] at hkey
    refine ⟨hm, hkey.1, ?_⟩
    have := hkey.2
    simp only [Bool.not_eq_false] at this
    exact this

def reqPostAudio : Request :=
  { method := "POST", path := "/a.mp3", params := fun _ => none, ifNoneMatch := none }

/-- Witness for C8 at a concrete input: a POST request is answered with
405 without consulting the store. -/
theorem audioWorkerFetch_spec_witness :
    (audioWorkerFetch reqPostAudio (fun _ => none)).1.status = 405 ∧
    (audioWorkerFetch reqPostAudio (fun _ => none)).2 = [] :=
  (audioWorkerFetch_spec reqPostAudio (fun _ => none)).1 (by decide)

/-! ### Theorems: error responses (C1) -/

/-- Is the body a JSON object with an `error` field? -/
def isJsonError : Body → Bool
  | .jsonErr _ => true
  | _ => false

/-- Claim C1 counterexample: the standalone audio worker answers a POST
request with status 405 and the plain-text body "Method Not Allowed",
which is not a JSON body with an error field. -/
theorem audioWorker_post_not_json :
    (audioWorkerFetch reqPostAudio (fun _ => none)).1.status = 405 ∧
    (audioWorkerFetch reqPostAudio (fun _ => none)).1.body = Body.text "Method Not Allowed" ∧
    isJsonError (audioWorkerFetch reqPostAudio (fun _ => none)).1.body = false := by
  refine ⟨by decide, by decide, by decide⟩

theorem handleSearch_err (qq : Option String) (st : St) :
    400 ≤ (handleSearch qq st).status →
      (handleSearch qq st).status < 600 ∧
      ∃ m, (handleSearch qq st).body = Body.jsonErr m := by
  simp only [handleSearch]
  split
  · intro _
    exact ⟨by dsimp only [jsonResponse]; omega, ⟨_, rfl⟩⟩
  · split
    · intro _
      exact ⟨by dsimp only [jsonResponse]; omega, ⟨_, rfl⟩⟩
    · split
      · intro _
        exact ⟨by dsimp only [jsonResponse]; omega, ⟨_, rfl⟩⟩
      · intro h
        dsimp only [jsonResponse] at h
        omega

theorem handleGetDetail_err (lem : String) (env : Env) (st : St) :
    400 ≤ (handleGetDetail lem env st).1.status →
      (handleGetDetail lem env st).1.status < 600 ∧
      ∃ m, (handleGetDetail lem env st).1.body = Body.jsonErr m := by
  simp only [handleGetDetail]
  split
  · intro _
    exact ⟨by dsimp only [jsonResponse]; omega, ⟨_, rfl⟩⟩
  · split
    · intro h
      dsimp only [jsonResponse] at h
      omega
    · split
      · intro _
        exact ⟨by dsimp only [jsonResponse]; omega, ⟨_, rfl⟩⟩
      · intro h
        dsimp only [jsonResponse] at h
        omega

theorem handleRandomWord_err (pick : Nat) (params : Params) (st : St) :
    400 ≤ (handleRandomWord pick params st).status →
      (handleRandomWord pick params st).status < 600 ∧
      ∃ m, (handleRandomWord pick params st).body = Body.jsonErr m := by
  unfold handleRandomWord
  split
  · intro _
    exact ⟨by dsimp only [jsonResponseNoStore]; omega, ⟨_, rfl⟩⟩
  · split
    · intro _
      exact ⟨by dsimp only [jsonResponseNoStore]; omega, ⟨_, rfl⟩⟩
    · unfold randomRespond
      split
      · intro _
        exact ⟨by dsimp only [jsonResponseNoStore]; omega, ⟨_, rfl⟩⟩
      · split
        · intro _
          exact ⟨by dsimp only [jsonResponseNoStore]; omega, ⟨_, rfl⟩⟩
        · intro h
          dsimp only [jsonResponseNoStore] at h
          omega

theorem handleGenerateQuiz_err (rng : QuizRng) (params : Params) (st : St) :
    400 ≤ (handleGenerateQuiz rng params st).status →
      (handleGenerateQuiz rng params st).status < 600 ∧
      ∃ m, (handleGenerateQuiz rng params st).body = Body.jsonErr m := by
  unfold handleGenerateQuiz
  split
  · intro _
    exact ⟨by dsimp only [jsonResponseNoStore]; omega, ⟨_, rfl⟩⟩
  · split
    · intro _
      exact ⟨by dsimp only [jsonResponseNoStore]; omega, ⟨_, rfl⟩⟩
    · unfold quizRespond
      split
      · intro h
        dsimp only [jsonResponseNoStore] at h
        omega
      · split
        · split
          · intro _
            exact ⟨by dsimp only [jsonResponseNoStore]; omega, ⟨_, rfl⟩⟩
          · intro h
            dsimp only [jsonResponseNoStore] at h
            omega
        · intro h
          dsimp only [jsonResponseNoStore] at h
          omega

theorem handleGetSentences_err (params : Params) (st : St) :
    400 ≤ (handleGetSentences params st).status →
      (handleGetSentences params st).status < 600 ∧
      ∃ m, (handleGetSentences params st).body = Body.jsonErr m := by
  simp only [handleGetSentences]
  split
  · intro _
    exact ⟨by dsimp only [jsonResponseNoStore]; omega, ⟨_, rfl⟩⟩
  · split
    · intro _
      exact ⟨by dsimp only [jsonResponseNoStore]; omega, ⟨_, rfl⟩⟩
    · intro h
      dsimp only [jsonResponseNoStore] at h
      omega

theorem handleGetAudio_text (pathname : String) (env : Env) (st : St) :
    400 ≤ (handleGetAudio pathname env st).status →
      (handleGetAudio pathname env st).status < 600 ∧
      ∃ s, (handleGetAudio pathname env st).body = Body.text s := by
  simp only [handleGetAudio]
  split
  · intro _
    exact ⟨by dsimp only; omega, ⟨_, rfl⟩⟩
  · split
    · intro _
      exact ⟨by dsimp only; omega, ⟨_, rfl⟩⟩
    · intro h
      dsimp only at h
      omega

theorem edgeHitResponse_status_lt (inm : Option String) (cached : Response)
    (hlt : cached.status < 400) : (edgeHitResponse inm cached).status < 400 := by
  unfold edgeHitResponse
  split
  · split
    · show (304 : Nat) < 400
      omega
    · exact hlt
  · exact hlt

theorem handleGetIndex_err (req : Request) (env : Env) (st : St)
    (hedge : ∀ r, st.edgeIndex = some r → r.status < 400) :
    400 ≤ (handleGetIndex req env st).1.status →
      (handleGetIndex req env st).1.status < 600 ∧
      ∃ m, (handleGetIndex req env st).1.body = Body.jsonErr m := by
  simp only [handleGetIndex]
  split
  · next cached hcached =>
    intro h
    have hlt := edgeHitResponse_status_lt req.ifNoneMatch cached (hedge cached hcached)
    have he : (edgeHitResponse req.ifNoneMatch cached, st).1.status =
        (edgeHitResponse req.ifNoneMatch cached).status := rfl
    rw [he] at h
    omega
  · split
    · intro h
      dsimp only [jsonResponse] at h
      omega
    · split
      · intro _
        exact ⟨by dsimp only [jsonResponse]; omega, ⟨_, rfl⟩⟩
      · intro h
        dsimp only at h
        omega

theorem handleGetSearchIndex_err (req : Request) (env : Env) (st : St)
    (hedge : ∀ r, st.edgeSearch = some r → r.status < 400) :
    400 ≤ (handleGetSearchIndex req env st).1.status →
      (handleGetSearchIndex req env st).1.status < 600 ∧
      ∃ m, (handleGetSearchIndex req env st).1.body = Body.jsonErr m := by
  simp only [handleGetSearchIndex]
  split
  · next cached hcached =>
    intro h
    have hlt := edgeHitResponse_status_lt req.ifNoneMatch cached (hedge cached hcached)
    have he : (edgeHitResponse req.ifNoneMatch cached, st).1.status =
        (edgeHitResponse req.ifNoneMatch cached).status := rfl
    rw [he] at h
    omega
  · split
    · intro h
      dsimp only [jsonResponse] at h
      omega
    · split
      · intro _
        exact ⟨by dsimp only [jsonResponse]; omega, ⟨_, rfl⟩⟩
      · intro h
        dsimp only at h
        omega

theorem audioWorkerFetch_text (req : Request) (bucket : String → Option Unit) :
    400 ≤ (audioWorkerFetch req bucket).1.status →
      (audioWorkerFetch req bucket).1.status < 600 ∧
      ∃ s, (audioWorkerFetch req bucket).1.body = Body.text s := by
  dsimp only [audioWorkerFetch]
  split
  · intro _
    exact ⟨by dsimp only; omega, ⟨_, rfl⟩⟩
  · split
    · intro _
      exact ⟨by dsimp only; omega, ⟨_, rfl⟩⟩
    · split
      · intro _
        exact ⟨by dsimp only; omega, ⟨_, rfl⟩⟩
      · intro h
        dsimp only at h
        omega

/-- A well-formed edge cache: any cached response has a success
status (only 200 responses are ever put into the edge cache). -/
def edgeOKb (st : St) : Bool :=
  (match st.edgeIndex with
   | some r => decide (r.status < 400)
   | none => true) &&
  (match st.edgeSearch with
   | some r => decide (r.status < 400)
   | none => true)

theorem edgeOKb_index {st : St} (h : edgeOKb st = true) :
    ∀ r, st.edgeIndex = some r → r.status < 400 := by
  intro r hr
  unfold edgeOKb at h
  rw [hr, Bool.and_eq_true] at h
  simpa using h.1

theorem edgeOKb_search {st : St} (h : edgeOKb st = true) :
    ∀ r, st.edgeSearch = some r → r.status < 400 := by
  intro r hr
  unfold edgeOKb at h
  rw [hr, Bool.and_eq_true] at h
  simpa using h.2

theorem apiFetch_err (rng : Rng) (req : Request) (env : Env) (st : St)
    (hedge : edgeOKb st = true) (resp : Response)
    (heq : (apiFetch rng req env st).1 = resp) :
    400 ≤ resp.status →
      resp.status < 600 ∧
      ((∃ m, resp.body = Body.jsonErr m) ∨
        (jsStartsWith req.path "/audio/" = true ∧ ∃ s, resp.body = Body.text s)) := by
  delta apiFetch at heq
  split at heq
  · try dsimp only at heq
    subst heq
    intro h
    dsimp only at h
    omega
  · -- remaining routes
    split at heq
    · try dsimp only at heq
      subst heq
      intro _
      exact ⟨by dsimp only [jsonResponse]; omega, Or.inl ⟨_, rfl⟩⟩
    · -- remaining routes
      split at heq
      · try dsimp only at heq
        subst heq
        intro h
        obtain ⟨hs, hm⟩ := handleGetIndex_err req env st (edgeOKb_index hedge) h
        exact ⟨hs, Or.inl hm⟩
      · -- remaining routes
        split at heq
        · try dsimp only at heq
          subst heq
          intro h
          obtain ⟨hs, hm⟩ := handleSearch_err (req.params "q") st h
          exact ⟨hs, Or.inl hm⟩
        · -- remaining routes
          split at heq
          · try dsimp only at heq
            subst heq
            intro h
            obtain ⟨hs, hm⟩ := handleGetDetail_err (lastSegOf req.path) env st h
            exact ⟨hs, Or.inl hm⟩
          · -- remaining routes
            split at heq
            · try dsimp only at heq
              subst heq
              intro h
              obtain ⟨hs, hm⟩ := handleRandomWord_err rng.randomPick req.params st h
              exact ⟨hs, Or.inl hm⟩
            · -- remaining routes
              split at heq
              · try dsimp only at heq
                subst heq
                intro h
                obtain ⟨hs, hm⟩ := handleGenerateQuiz_err rng.quiz req.params st h
                exact ⟨hs, Or.inl hm⟩
              · -- remaining routes
                split at heq
                · try dsimp only at heq
                  subst heq
                  intro h
                  obtain ⟨hs, hm⟩ := handleGetSearchIndex_err req env st (edgeOKb_search hedge) h
                  exact ⟨hs, Or.inl hm⟩
                · -- remaining routes
                  split at heq
                  · try dsimp only at heq
                    subst heq
                    intro h
                    obtain ⟨hs, hm⟩ := handleGetSentences_err req.params st h
                    exact ⟨hs, Or.inl hm⟩
                  · -- remaining routes
                    split at heq
                    · rename_i hau
                      try dsimp only at heq
                      subst heq
                      intro h
                      obtain ⟨hs, hm⟩ := handleGetAudio_text req.path env st h
                      exact ⟨hs, Or.inr ⟨hau, hm⟩⟩
                    · split at heq
                      · try dsimp only at heq
                        subst heq
                        intro h
                        dsimp only [jsonResponse] at h
                        omega
                      · try dsimp only at heq
                        subst heq
                        intro _
                        exact ⟨by dsimp only [jsonResponse]; omega, Or.inl ⟨_, rfl⟩⟩

/-- Claim C1 (amended): on a well-formed edge cache, every error
response (status at least 400) of the API worker has a status in
4xx/5xx and carries a JSON body with an error field, except on the
audio route, where the error body is plain text; every error response
of the standalone audio worker has a status in 4xx/5xx and a plain-text
body. -/
theorem errorResponses_spec (rng : Rng) (req : Request) (env : Env) (st : St)
    (reqB : Request) (bucket : String → Option Unit)
    (hedge : edgeOKb st = true) :
    (400 ≤ (apiFetch rng req env st).1.status →
      (apiFetch rng req env st).1.status < 600 ∧
      ((∃ m, (apiFetch rng req env st).1.body = Body.jsonErr m) ∨
        (jsStartsWith req.path "/audio/" = true ∧
          ∃ s, (apiFetch rng req env st).1.body = Body.text s))) ∧
    (400 ≤ (audioWorkerFetch reqB bucket).1.status →
      (audioWorkerFetch reqB bucket).1.status < 600 ∧
      ∃ s, (audioWorkerFetch reqB bucket).1.body = Body.text s) :=
  ⟨apiFetch_err rng req env st hedge (apiFetch rng req env st).1 rfl,
    audioWorkerFetch_text reqB bucket⟩

def rng0 : Rng :=
  { randomPick := 0
    quiz := { shuffleCands := fun _ => 0
              perQuestion := fun _ => { pick := fun _ => 0, shuffle := fun _ => 0 } } }

def reqNotFound : Request :=
  { method := "GET", path := "/nope", params := fun _ => none, ifNoneMatch := none }

def env0 : Env := { hasKV := false, hasAudioBucket := false }

/-- Witness for the amended C1 at a concrete input: an unknown path is
answered 404 with a JSON error body. -/
theorem errorResponses_spec_witness :
    edgeOKb stFix = true ∧
    ((apiFetch rng0 reqNotFound env0 stFix).1.status < 600 ∧
      ((∃ m, (apiFetch rng0 reqNotFound env0 stFix).1.body = Body.jsonErr m) ∨
        (jsStartsWith reqNotFound.path "/audio/" = true ∧
          ∃ s, (apiFetch rng0 reqNotFound env0 stFix).1.body = Body.text s))) :=
  ⟨by decide,
    (errorResponses_spec rng0 reqNotFound env0 stFix reqPostAudio (fun _ => none)
      (by decide)).1 (by decide)⟩

/-! ### Theorems: state effects (C2) -/

/-- The object-store components of two states agree. -/
def storeUnchanged (st2 st : St) : Prop :=
  st2.vocabIndexObj = st.vocabIndexObj ∧
  st2.searchIndexObj = st.searchIndexObj ∧
  st2.detailObj = st.detailObj ∧
  st2.audioObj = st.audioObj

theorem handleGetIndex_store (req : Request) (env : Env) (st : St) :
    storeUnchanged (handleGetIndex req env st).2 st := by
  simp only [handleGetIndex]
  split
  · exact ⟨rfl, rfl, rfl, rfl⟩
  · split
    · exact ⟨rfl, rfl, rfl, rfl⟩
    · split
      · exact ⟨rfl, rfl, rfl, rfl⟩
      · rcases Bool.eq_false_or_eq_true env.hasKV with h | h <;> rw [h] <;>
          exact ⟨rfl, rfl, rfl, rfl⟩

theorem handleGetSearchIndex_store (req : Request) (env : Env) (st : St) :
    storeUnchanged (handleGetSearchIndex req env st).2 st := by
  simp only [handleGetSearchIndex]
  split
  · exact ⟨rfl, rfl, rfl, rfl⟩
  · split
    · exact ⟨rfl, rfl, rfl, rfl⟩
    · split
      · exact ⟨rfl, rfl, rfl, rfl⟩
      · rcases Bool.eq_false_or_eq_true env.hasKV with h | h <;> rw [h] <;>
          exact ⟨rfl, rfl, rfl, rfl⟩

theorem handleGetDetail_store (lem : String) (env : Env) (st : St) :
    storeUnchanged (handleGetDetail lem env st).2 st := by
  simp only [handleGetDetail]
  split
  · exact ⟨rfl, rfl, rfl, rfl⟩
  · split
    · exact ⟨rfl, rfl, rfl, rfl⟩
    · split
      · exact ⟨rfl, rfl, rfl, rfl⟩
      · split
        · exact ⟨rfl, rfl, rfl, rfl⟩
        · exact ⟨rfl, rfl, rfl, rfl⟩

theorem apiFetch_store_aux (rng : Rng) (req : Request) (env : Env) (st : St)
    (st2 : St) (heq : (apiFetch rng req env st).2 = st2) :
    storeUnchanged st2 st := by
  delta apiFetch at heq
  split at heq
  · dsimp only at heq
    subst heq
    exact ⟨rfl, rfl, rfl, rfl⟩
  · split at heq
    · dsimp only at heq
      subst heq
      exact ⟨rfl, rfl, rfl, rfl⟩
    · split at heq
      · subst heq
        exact handleGetIndex_store req env st
      · split at heq
        · dsimp only at heq
          subst heq
          exact ⟨rfl, rfl, rfl, rfl⟩
        · split at heq
          · subst heq
            exact handleGetDetail_store (lastSegOf req.path) env st
          · split at heq
            · dsimp only at heq
              subst heq
              exact ⟨rfl, rfl, rfl, rfl⟩
            · split at heq
              · dsimp only at heq
                subst heq
                exact ⟨rfl, rfl, rfl, rfl⟩
              · split at heq
                · subst heq
                  exact handleGetSearchIndex_store req env st
                · split at heq
                  · dsimp only at heq
                    subst heq
                    exact ⟨rfl, rfl, rfl, rfl⟩
                  · split at heq
                    · dsimp only at heq
                      subst heq
                      exact ⟨rfl, rfl, rfl, rfl⟩
                    · split at heq
                      · dsimp only at heq
                        subst heq
                        exact ⟨rfl, rfl, rfl, rfl⟩
                      · dsimp only at heq
                        subst heq
                        exact ⟨rfl, rfl, rfl, rfl⟩

/-- Claim C2 (amended): no handler ever writes to the object store (the
two R2 buckets); the index, search-index and detail handlers do,
however, populate the shared KV cache and edge cache on cache misses,
which is the mutable state shared between requests. -/
theorem apiFetch_store_unchanged (rng : Rng) (req : Request) (env : Env) (st : St) :
    storeUnchanged (apiFetch rng req env st).2 st :=
  apiFetch_store_aux rng req env st (apiFetch rng req env st).2 rfl

def reqIndex : Request :=
  { method := "GET", path := "/api/vocab/index", params := fun _ => none
    ifNoneMatch := none }

def envKV : Env := { hasKV := true, hasAudioBucket := false }

/-- Claim C2 counterexample: handling a vocabulary-index request over an
empty cache writes the loaded index into the KV cache and the edge
cache, so handling a request does not leave the key-value cache or the
edge cache unchanged. -/
theorem handleGetIndex_mutates_kv :
    stFix.kvVocabIndex = none ∧
    (apiFetch rng0 reqIndex envKV stFix).2.kvVocabIndex = some [entryApple, entryBanana] ∧
    (apiFetch rng0 reqIndex envKV stFix).2.kvVocabIndex ≠ stFix.kvVocabIndex ∧
    (apiFetch rng0 reqIndex envKV stFix).2.edgeIndex ≠ stFix.edgeIndex := by
  refine ⟨rfl, by decide, by decide, by decide⟩

/-! ### Theorems: handleRandomWord (C6) -/

/-- The frequency condition the code actually applies: membership in the
named bucket, vacuous when the parameter is absent, empty, or names no
bucket. -/
def freqCond (sIdx : SearchIdx) (freq : Option String) (l : String) : Bool :=
  match freq with
  | some f =>
    if f = "" then true
    else
      match jsGet sIdx.by_frequency f with
      | some ws => decide (l ∈ ws)
      | none => true
  | none => true

/-- The part-of-speech condition the code actually applies. -/
def posCond (sIdx : SearchIdx) (pos : Option String) (l : String) : Bool :=
  match pos with
  | some p =>
    if p = "" then true
    else
      match jsGet sIdx.by_pos p with
      | some pws => decide (l ∈ pws)
      | none => true
  | none => true

/-- The proper-noun exclusion the code actually applies. -/
def propnCond (sIdx : SearchIdx) (excludePropn : Bool) (l : String) : Bool :=
  if excludePropn then
    match jsGet sIdx.by_pos "PROPN" with
    | some pr => decide (l ∉ pr)
    | none => true
  else true

/-- The count-range condition. -/
def rangeCond (indexMap : String → Option IndexEntry) (fmin fmax : Option Int)
    (l : String) : Bool :=
  if fmin.isSome || fmax.isSome then countInRange indexMap fmin fmax l else true

/-- The conjunction of the filters `handleRandomWord` actually applies
(a freq/pos parameter naming an absent bucket filters nothing). -/
def appliedFilters (sIdx : SearchIdx) (index : List IndexEntry)
    (freq pos : Option String) (excludePropn : Bool)
    (fmin fmax : Option Int) (l : String) : Bool :=
  freqCond sIdx freq l && posCond sIdx pos l &&
    propnCond sIdx excludePropn l && rangeCond (mkIndexMap index) fmin fmax l

/-- The filter satisfaction relation exactly as claim C6 words it:
frequency bucket membership, part-of-speech bucket membership,
proper-noun exclusion and count range, for every parameter given — a
word is never a member of a bucket that does not exist. -/
def specWordSatisfies (sIdx : SearchIdx) (index : List IndexEntry)
    (freq pos : Option String) (excludePropn : Bool)
    (fmin fmax : Option Int) (l : String) : Bool :=
  (match freq with
   | some f =>
     if f = "" then true
     else
       match jsGet sIdx.by_frequency f with
       | some ws => decide (l ∈ ws)
       | none => false
   | none => true) &&
  (match pos with
   | some p =>
     if p = "" then true
     else
       match jsGet sIdx.by_pos p with
       | some pws => decide (l ∈ pws)
       | none => false
   | none => true) &&
  propnCond sIdx excludePropn l && rangeCond (mkIndexMap index) fmin fmax l

theorem mem_candFreq_cond {sIdx : SearchIdx} {index : List IndexEntry}
    {freq : Option String} {l : String} (h : l ∈ candFreq sIdx index freq) :
    freqCond sIdx freq l = true := by
  unfold candFreq at h
  unfold freqCond
  cases freq with
  | none => rfl
  | some f =>
    dsimp only at h ⊢
    by_cases hf : f = ""
    · rw [if_pos hf]
    · rw [if_neg hf] at h ⊢
      cases hg : jsGet sIdx.by_frequency f with
      | none => simp [hg]
      | some ws =>
        rw [hg] at h
        simp only [hg]
        simpa using h

theorem mem_candFreq_of_index {sIdx : SearchIdx} {index : List IndexEntry}
    {freq : Option String} {l : String} (hidx : l ∈ index.map (fun w => w.lemma_))
    (hc : freqCond sIdx freq l = true) : l ∈ candFreq sIdx index freq := by
  unfold freqCond at hc
  unfold candFreq
  cases freq with
  | none => exact hidx
  | some f =>
    dsimp only at hc ⊢
    by_cases hf : f = ""
    · rw [if_pos hf]
      exact hidx
    · rw [if_neg hf] at hc ⊢
      cases hg : jsGet sIdx.by_frequency f with
      | none => simp only [hg]; exact hidx
      | some ws =>
        rw [hg] at hc
        simp only [hg]
        simpa using hc

theorem mem_candPos_iff {sIdx : SearchIdx} {pos : Option String}
    {c0 : List String} {l : String} :
    l ∈ candPos sIdx pos c0 ↔ (l ∈ c0 ∧ posCond sIdx pos l = true) := by
  unfold candPos posCond
  cases pos with
  | none => simp
  | some p =>
    dsimp only
    by_cases hp : p = ""
    · rw [if_pos hp, if_pos hp]
      simp
    · rw [if_neg hp, if_neg hp]
      cases hg : jsGet sIdx.by_pos p with
      | none => simp [hg]
      | some pws => simp [hg, List.mem_filter]

theorem mem_candPropn_iff {sIdx : SearchIdx} {ep : Bool}
    {c1 : List String} {l : String} :
    l ∈ candPropn sIdx ep c1 ↔ (l ∈ c1 ∧ propnCond sIdx ep l = true) := by
  unfold candPropn propnCond
  cases ep with
  | false => simp
  | true =>
    simp only [if_true]
    cases hg : jsGet sIdx.by_pos "PROPN" with
    | none => simp [hg]
    | some pr => simp [hg, List.mem_filter]

theorem mem_candRange_iff {indexMap : String → Option IndexEntry}
    {fmin fmax : Option Int} {c2 : List String} {l : String} :
    l ∈ candRange indexMap fmin fmax c2 ↔
      (l ∈ c2 ∧ rangeCond indexMap fmin fmax l = true) := by
  unfold candRange rangeCond
  by_cases hb : (fmin.isSome || fmax.isSome) = true
  · rw [if_pos hb, if_pos hb]
    simp [List.mem_filter]
  · rw [if_neg hb, if_neg hb]
    simp

theorem candidates_sound {sIdx : SearchIdx} {index : List IndexEntry}
    {freq pos : Option String} {ep : Bool} {fmin fmax : Option Int} {l : String}
    (h : l ∈ candidatesOf sIdx index freq pos ep fmin fmax) :
    appliedFilters sIdx index freq pos ep fmin fmax l = true := by
  unfold candidatesOf at h
  obtain ⟨h2, hr⟩ := mem_candRange_iff.mp h
  obtain ⟨h1, hpr⟩ := mem_candPropn_iff.mp h2
  obtain ⟨h0, hpo⟩ := mem_candPos_iff.mp h1
  have hf := mem_candFreq_cond h0
  unfold appliedFilters
  rw [hf, hpo, hpr, hr]
  rfl

theorem candidates_complete {sIdx : SearchIdx} {index : List IndexEntry}
    {freq pos : Option String} {ep : Bool} {fmin fmax : Option Int}
    {w : IndexEntry} (hw : w ∈ index)
    (h : appliedFilters sIdx index freq pos ep fmin fmax w.lemma_ = true) :
    w.lemma_ ∈ candidatesOf sIdx index freq pos ep fmin fmax := by
  unfold appliedFilters at h
  simp only [Bool.and_eq_true] at h
  obtain ⟨⟨⟨hf, hpo⟩, hpr⟩, hr⟩ := h
  have hidx : w.lemma_ ∈ index.map (fun w => w.lemma_) :=
    List.mem_map.mpr ⟨w, hw, rfl⟩
  unfold candidatesOf
  exact mem_candRange_iff.mpr
    ⟨mem_candPropn_iff.mpr ⟨mem_candPos_iff.mpr
      ⟨mem_candFreq_of_index hidx hf, hpo⟩, hpr⟩, hr⟩

theorem randomRespond_amended (pick : Nat) (params : Params) (st : St)
    (sIdx : SearchIdx) (index : List IndexEntry) :
    (∃ c d, appliedFilters sIdx index (params "freq") (params "pos")
        (params "exclude_propn" == some "true")
        (parseIntJS (jsOr (params "freq_min") ""))
        (parseIntJS (jsOr (params "freq_max") "")) c = true ∧
      st.detailObj c = some d ∧
      randomRespond pick params st sIdx index =
        jsonResponseNoStore (.randomOk d) 200) ∨
    (randomRespond pick params st sIdx index =
        jsonResponseNoStore (.jsonErr "No words found matching criteria") 404 ∧
      ∀ w ∈ index, appliedFilters sIdx index (params "freq") (params "pos")
        (params "exclude_propn" == some "true")
        (parseIntJS (jsOr (params "freq_min") ""))
        (parseIntJS (jsOr (params "freq_max") "")) w.lemma_ = false) ∨
    (∃ c, appliedFilters sIdx index (params "freq") (params "pos")
        (params "exclude_propn" == some "true")
        (parseIntJS (jsOr (params "freq_min") ""))
        (parseIntJS (jsOr (params "freq_max") "")) c = true ∧
      st.detailObj c = none ∧
      randomRespond pick params st sIdx index =
        jsonResponseNoStore (.jsonErr "Word not found") 404) := by
  unfold randomRespond
  cases hc : candidatesOf sIdx index (params "freq") (params "pos")
      (params "exclude_propn" == some "true")
      (parseIntJS (jsOr (params "freq_min") ""))
      (parseIntJS (jsOr (params "freq_max") "")) with
  | nil =>
    refine Or.inr (Or.inl ⟨rfl, ?_⟩)
    intro w hw
    rcases Bool.eq_false_or_eq_true (appliedFilters sIdx index (params "freq")
        (params "pos") (params "exclude_propn" == some "true")
        (parseIntJS (jsOr (params "freq_min") ""))
        (parseIntJS (jsOr (params "freq_max") "")) w.lemma_) with ht | hf
    · exfalso
      have hmem := candidates_complete hw ht
      rw [hc] at hmem
      exact absurd hmem (List.not_mem_nil _)
    · exact hf
  | cons c cs =>
    have hlt : pick % (c :: cs).length < (c :: cs).length :=
      Nat.mod_lt _ (by simp)
    have hmem : (c :: cs).getD (pick % (c :: cs).length) "" ∈ (c :: cs) := by
      have hp := getD_cons_eraseIdx_perm (c :: cs) (pick % (c :: cs).length) hlt
      exact hp.mem_iff.mp (List.mem_cons_self _ _)
    have hmemc : (c :: cs).getD (pick % (c :: cs).length) "" ∈
        candidatesOf sIdx index (params "freq") (params "pos")
          (params "exclude_propn" == some "true")
          (parseIntJS (jsOr (params "freq_min") ""))
          (parseIntJS (jsOr (params "freq_max") "")) := by
      rw [hc]
      exact hmem
    have happ := candidates_sound hmemc
    cases hd : st.detailObj ((c :: cs).getD (pick % (c :: cs).length) "") with
    | none =>
      refine Or.inr (Or.inr ⟨_, happ, hd, ?_⟩)
      dsimp only
      rw [hd]
    | some d =>
      refine Or.inl ⟨_, d, happ, hd, ?_⟩
      dsimp only
      rw [hd]

/-- Claim C6 (amended): when both index objects exist, `handleRandomWord`
either returns the detail document of a word satisfying every filter the
code applies (a freq or pos parameter naming an absent bucket is ignored
rather than matching nothing), or 404 "No words found matching criteria"
when no candidate passes — in which case no index word satisfies the
applied filters — or 404 "Word not found" when the chosen candidate has
no detail document. -/
theorem handleRandomWord_amended (pick : Nat) (params : Params) (st : St)
    (sObj : SearchIdxObj) (vObj : IndexObj)
    (hs : st.searchIndexObj = some sObj) (hv : st.vocabIndexObj = some vObj) :
    (∃ c d, appliedFilters sObj.data vObj.data (params "freq") (params "pos")
        (params "exclude_propn" == some "true")
        (parseIntJS (jsOr (params "freq_min") ""))
        (parseIntJS (jsOr (params "freq_max") "")) c = true ∧
      st.detailObj c = some d ∧
      handleRandomWord pick params st = jsonResponseNoStore (.randomOk d) 200) ∨
    (handleRandomWord pick params st =
        jsonResponseNoStore (.jsonErr "No words found matching criteria") 404 ∧
      ∀ w ∈ vObj.data, appliedFilters sObj.data vObj.data (params "freq") (params "pos")
        (params "exclude_propn" == some "true")
        (parseIntJS (jsOr (params "freq_min") ""))
        (parseIntJS (jsOr (params "freq_max") "")) w.lemma_ = false) ∨
    (∃ c, appliedFilters sObj.data vObj.data (params "freq") (params "pos")
        (params "exclude_propn" == some "true")
        (parseIntJS (jsOr (params "freq_min") ""))
        (parseIntJS (jsOr (params "freq_max") "")) c = true ∧
      st.detailObj c = none ∧
      handleRandomWord pick params st =
        jsonResponseNoStore (.jsonErr "Word not found") 404) := by
  have hre : handleRandomWord pick params st =
      randomRespond pick params st sObj.data vObj.data := by
    unfold handleRandomWord
    rw [hs, hv]
  rw [hre]
  exact randomRespond_amended pick params st sObj.data vObj.data

def randParamsFreq : Params := fun s => if s = "freq" then some "high" else none

/-- Claim C6 counterexample: with a freq parameter naming a bucket
absent from the search index, no word satisfies the claimed frequency
filter (bucket membership), yet the handler ignores the filter and
returns a word with status 200 instead of 404. -/
theorem handleRandomWord_missing_bucket :
    handleRandomWord 0 randParamsFreq stFix =
      jsonResponseNoStore (.randomOk docApple) 200 ∧
    (∀ w ∈ [entryApple, entryBanana],
      specWordSatisfies { by_frequency := [], by_pos := [] } [entryApple, entryBanana]
        (some "high") none false none none w.lemma_ = false) := by
  refine ⟨by decide, by decide⟩

/-- Witness for the amended C6 at a concrete input: handleRandomWord
serves the detail document of "apple", which passes the applied
filters. -/
theorem handleRandomWord_amended_witness :
    (stFix.searchIndexObj = some { data := { by_frequency := [], by_pos := [] }, etag := "" }) ∧
    ((∃ c d, appliedFilters { by_frequency := [], by_pos := [] } [entryApple, entryBanana]
        (randParamsFreq "freq") (randParamsFreq "pos")
        (randParamsFreq "exclude_propn" == some "true")
        (parseIntJS (jsOr (randParamsFreq "freq_min") ""))
        (parseIntJS (jsOr (randParamsFreq "freq_max") "")) c = true ∧
      stFix.detailObj c = some d ∧
      handleRandomWord 0 randParamsFreq stFix = jsonResponseNoStore (.randomOk d) 200) ∨
    (handleRandomWord 0 randParamsFreq stFix =
        jsonResponseNoStore (.jsonErr "No words found matching criteria") 404 ∧
      ∀ w ∈ [entryApple, entryBanana], appliedFilters { by_frequency := [], by_pos := [] }
        [entryApple, entryBanana]
        (randParamsFreq "freq") (randParamsFreq "pos")
        (randParamsFreq "exclude_propn" == some "true")
        (parseIntJS (jsOr (randParamsFreq "freq_min") ""))
        (parseIntJS (jsOr (randParamsFreq "freq_max") "")) w.lemma_ = false) ∨
    (∃ c, appliedFilters { by_frequency := [], by_pos := [] } [entryApple, entryBanana]
        (randParamsFreq "freq") (randParamsFreq "pos")
        (randParamsFreq "exclude_propn" == some "true")
        (parseIntJS (jsOr (randParamsFreq "freq_min") ""))
        (parseIntJS (jsOr (randParamsFreq "freq_max") "")) c = true ∧
      stFix.detailObj c = none ∧
      handleRandomWord 0 randParamsFreq stFix =
        jsonResponseNoStore (.jsonErr "Word not found") 404)) :=
  ⟨rfl,
    handleRandomWord_amended 0 randParamsFreq stFix
      { data := { by_frequency := [], by_pos := [] }, etag := "" }
      { data := [entryApple, entryBanana], etag := "e1" } rfl rfl⟩

/-! ### Theorems: handleGenerateQuiz (C7) -/

theorem choiceLoop_length (rng : QuizRng) (im : String → Option IndexEntry)
    (type : String) (all : List String) :
    ∀ (lst : List String) (qs : List Question),
      (choiceLoop rng im type all lst qs).length ≤ qs.length + lst.length := by
  intro lst
  induction lst with
  | nil =>
    intro qs
    simp [choiceLoop]
  | cons l rest ih =>
    intro qs
    unfold choiceLoop
    split
    · refine le_trans (ih qs) ?_
      simp only [List.length_cons]
      omega
    · split
      · refine le_trans (ih _) ?_
        simp only [List.length_append, List.length_cons, List.length_nil]
        omega
      · split
        · refine le_trans (ih _) ?_
          simp only [List.length_append, List.length_cons, List.length_nil]
          omega
        · refine le_trans (ih qs) ?_
          simp only [List.length_cons]
          omega

theorem fillLoop_length_le (rng : QuizRng) (ds : String → Option DetailDoc)
    (im : String → Option IndexEntry) (c : Int) (all : List String) :
    ∀ (lst : List String) (qs qs2 : List Question),
      qs.length ≤ c.toNat → 1 ≤ c →
      fillLoop rng ds im (some c) all lst qs = .ok qs2 →
      qs2.length ≤ c.toNat := by
  intro lst
  induction lst with
  | nil =>
    intro qs qs2 hle hc h
    unfold fillLoop at h
    cases h
    exact hle
  | cons l rest ih =>
    intro qs qs2 hle hc h
    unfold fillLoop at h
    by_cases hreach : jsCountReached qs.length (some c) = true
    · rw [if_pos hreach] at h
      cases h
      exact hle
    · rw [if_neg hreach] at h
      have hlt : (qs.length : Int) < c := by
        unfold jsCountReached at hreach
        simpa using hreach
      split at h
      · exact ih qs qs2 hle hc h
      · split at h
        · exact ih qs qs2 hle hc h
        · split at h
          · exact ih qs qs2 hle hc h
          · split at h
            · cases h
            · refine ih _ qs2 ?_ hc h
              simp only [List.length_append, List.length_singleton]
              omega

/-- The question-count bound as the claim words it, for a numeric (or
absent) count parameter: `parseInt` clamped to [1, 100], default 10. -/
def quizClampNat (params : Params) : Nat :=
  match quizCount params with
  | some c => c.toNat
  | none => 0

theorem quizRespond_count (rng : QuizRng) (params : Params) (st : St)
    (sIdx : SearchIdx) (index : List IndexEntry)
    (hcount : (parseIntJS (jsOr (params "count") "10")).isSome = true) :
    (∃ m, quizRespond rng params st sIdx index =
        jsonResponseNoStore (.jsonErr m) 500) ∨
    (∃ qs, quizRespond rng params st sIdx index =
        jsonResponseNoStore (.quizOk (quizType params) qs.length qs) 200 ∧
      qs.length ≤ quizClampNat params ∧ quizClampNat params ≤ 100) := by
  obtain ⟨n, hn⟩ := Option.isSome_iff_exists.mp hcount
  have hqc : quizCount params = some (min 100 (max 1 n)) := by
    unfold quizCount
    rw [hn]
    rfl
  have hclamp : quizClampNat params = (min 100 (max 1 n)).toNat := by
    unfold quizClampNat
    rw [hqc]
  have h1 : (1 : Int) ≤ min 100 (max 1 n) := by omega
  have h100 : quizClampNat params ≤ 100 := by
    rw [hclamp]
    omega
  unfold quizRespond
  by_cases hemp : (quizCandidates sIdx index params).isEmpty = true
  · rw [if_pos hemp]
    exact Or.inr ⟨[], rfl, by simp [hclamp], h100⟩
  · rw [if_neg hemp]
    by_cases hfill : quizType params = "fill"
    · rw [if_pos hfill]
      cases hfl : fillLoop rng st.detailObj (mkIndexMap index) (quizCount params)
          (quizShuffled rng sIdx index params) (quizShuffled rng sIdx index params) [] with
      | error e => exact Or.inl ⟨_, rfl⟩
      | ok qs =>
        refine Or.inr ⟨qs, rfl, ?_, h100⟩
        rw [hclamp]
        rw [hqc] at hfl
        exact fillLoop_length_le rng st.detailObj (mkIndexMap index)
          (min 100 (max 1 n)) (quizShuffled rng sIdx index params)
          (quizShuffled rng sIdx index params) [] qs (by simp) h1 hfl
    · rw [if_neg hfill]
      refine Or.inr ⟨_, rfl, ?_, h100⟩
      refine le_trans (choiceLoop_length rng (mkIndexMap index) (quizType params)
        (quizShuffled rng sIdx index params)
        ((quizShuffled rng sIdx index params).take
          (match quizCount params with | some c => c.toNat | none => 0)) []) ?_
      rw [hclamp, hqc]
      dsimp only
      rw [List.length_take]
      simp only [List.length_nil]
      omega

/-- Claim C7 (amended): for a quiz request whose count parameter is
absent, empty, or parses to an integer, the response is either a 500
JSON error or a quiz whose count field equals the length of its
questions list (0 when no candidate matches), with at most
`min(100, max(1, count))` (default 10) questions.  A non-numeric count
parameter is NaN: the fill loop then never stops on the count (see the
counterexample) and the other modes select zero lemmas. -/
theorem handleGenerateQuiz_count_spec (rng : QuizRng) (params : Params) (st : St)
    (hcount : (parseIntJS (jsOr (params "count") "10")).isSome = true) :
    (∃ m, handleGenerateQuiz rng params st = jsonResponseNoStore (.jsonErr m) 500) ∨
    (∃ qs, handleGenerateQuiz rng params st =
        jsonResponseNoStore (.quizOk (quizType params) qs.length qs) 200 ∧
      qs.length ≤ quizClampNat params ∧ quizClampNat params ≤ 100) := by
  unfold handleGenerateQuiz
  split
  · exact Or.inl ⟨_, rfl⟩
  · split
    · exact Or.inl ⟨_, rfl⟩
    · exact quizRespond_count rng params st _ _ hcount

def quizParamsW : Params := fun s => if s = "count" then some "2" else none

/-- Witness for the amended C7 at a concrete input: two choice
questions are generated from the two-word index with count 2. -/
theorem handleGenerateQuiz_count_spec_witness :
    ((parseIntJS (jsOr (quizParamsW "count") "10")).isSome = true) ∧
    ((∃ m, handleGenerateQuiz rng0.quiz quizParamsW stFix =
        jsonResponseNoStore (.jsonErr m) 500) ∨
    (∃ qs, handleGenerateQuiz rng0.quiz quizParamsW stFix =
        jsonResponseNoStore (.quizOk (quizType quizParamsW) qs.length qs) 200 ∧
      qs.length ≤ quizClampNat quizParamsW ∧ quizClampNat quizParamsW ≤ 100)) :=
  ⟨by decide, handleGenerateQuiz_count_spec rng0.quiz quizParamsW stFix (by decide)⟩

/-- A detail document with one sentence, used by every word of the
101-word counterexample index. -/
def docFill : DetailDoc :=
  { lemma_ := "", count := 0, meanings := none, pos_dist := none
    zh_preview := none, definition := none, sentences := .arr [.str "z"] }

/-- 101 distinct index entries a0 .. a100. -/
def quizIdxN : List IndexEntry :=
  (List.range 101).map
    (fun i => { lemma_ := "a" ++ Nat.repr i, count := 0, zh_preview := ""
                primary_pos := "" })

def stQuiz : St :=
  { vocabIndexObj := some { data := quizIdxN, etag := "" }
    searchIndexObj := some { data := { by_frequency := [], by_pos := [] }, etag := "" }
    detailObj := fun _ => some docFill
    audioObj := fun _ => none
    kvVocabIndex := none
    kvSearchIndex := none
    kvDetail := fun _ => none
    edgeIndex := none
    edgeSearch := none }

def quizParamsNaN : Params := fun s =>
  if s = "type" then some "fill"
  else if s = "count" then some "x" else none

/-- The number of questions of a quiz response. -/
def questionCountOf (r : Response) : Option Nat :=
  match r.body with
  | .quizOk _ _ qs => some qs.length
  | _ => none

/-- Claim C7 counterexample: with the non-numeric count parameter "x"
(NaN) and type=fill, the loop guard `questions.length >= count` is
always false, so all 101 candidates produce questions — more than any
value of "the count parameter clamped to [1, 100] with default 10". -/
theorem handleGenerateQuiz_nan_count :
    questionCountOf (handleGenerateQuiz rng0.quiz quizParamsNaN stQuiz) = some 101 ∧
    100 < 101 :=
  ⟨rfl, by omega⟩

end GsatVocab
